import Mathlib

/-!
Shallow embedding of the bank-innovation data-integration scripts of this
repository (`src/analysis/JDorval..py` and `src/help.py`).

DataFrames are lists of structures, strings are `List Char`, numeric cells
are `ℚ` (wrapped in `Option` where the cell can be NaN), and filesystem
effects (the files each script writes) are explicit return values.
-/

namespace BankInnovation

/-! ### Python string and regex primitives used by `clean_bank_name` -/

/-- Python regex word character (the class behind the `\b` boundary):
letters, digits and underscore. -/
def isWordChar (c : Char) : Bool :=
  c.isAlpha || c.isDigit || c = '_'

/-- Drop a literal pattern from the front of a string, returning the rest;
`none` when the string does not start with the pattern. -/
def dropPat : List Char → List Char → Option (List Char)
  | [], s => some s
  | _ :: _, [] => none
  | p :: ps, c :: cs => if p = c then dropPat ps cs else none

/-- Wordness of the character just before the current position (`none` at
the start of the string counts as a non-word character). -/
def prevWordB : Option Char → Bool
  | none => false
  | some c => isWordChar c

/-- Wordness of the character at the current position (the end of the
string counts as a non-word character). -/
def nextWordB : List Char → Bool
  | [] => false
  | c :: _ => isWordChar c

/-- Engine of `re.sub(r'\b<pat>\b', ' ', s)`: scan left to right, replace
each non-overlapping occurrence of the literal pattern `p0 :: ps` that has
word boundaries on both sides by a single space.  `skip` counts pattern
characters still to pass over after a replacement, `prev` is the character
of the original string just before the current position. -/
def subPatAux (p0 : Char) (ps : List Char) :
    Nat → Option Char → List Char → List Char
  | _, _, [] => []
  | Nat.succ k, _, c :: cs => subPatAux p0 ps k (some c) cs
  | 0, prev, c :: cs =>
    match dropPat ps cs with
    | some rest =>
      if p0 = c
          && (prevWordB prev != isWordChar p0)
          && (isWordChar (ps.getLastD p0) != nextWordB rest) then
        ' ' :: subPatAux p0 ps ps.length (some c) cs
      else
        c :: subPatAux p0 ps 0 (some c) cs
    | none => c :: subPatAux p0 ps 0 (some c) cs

/-- `re.sub(r'\b<pat>\b', ' ', s)` for a non-empty literal pattern. -/
def reSubWord (pat : List Char) (s : List Char) : List Char :=
  match pat with
  | [] => s
  | p :: ps => subPatAux p ps 0 none s

/-- One entry of the `remove_terms` list of `clean_bank_name`: either a
word-bounded literal (`r'\bNA\b'`, ...) or a single literal character
(`r'\&'`, `r'\.'`, `r','`, `r'-'`). -/
inductive RemoveTerm where
  | bword : List Char → RemoveTerm
  | litChar : Char → RemoveTerm

/-- Apply one `re.sub(term, ' ', name)` step. -/
def applyTerm (s : List Char) : RemoveTerm → List Char
  | .bword p => reSubWord p s
  | .litChar c => s.map (fun x => if x = c then ' ' else x)

/-- The `remove_terms` list of `clean_bank_name`, in source order. -/
def removeTerms : List RemoveTerm :=
  [ .bword "NA".toList, .bword "N.A.".toList, .bword "N.A".toList,
    .bword "FSB".toList, .bword "F.S.B.".toList,
    .bword "SSB".toList, .bword "S.S.B.".toList,
    .bword "NATIONAL ASSOCIATION".toList,
    .bword "FEDERAL SAVINGS BANK".toList,
    .bword "SAVINGS BANK".toList,
    .bword "BANK".toList,
    .bword "COMPANY".toList, .bword "CORP".toList, .bword "CORPORATION".toList,
    .bword "INC".toList, .bword "INCORPORATED".toList,
    .bword "LTD".toList, .bword "LIMITED".toList,
    .bword "THE".toList,
    .litChar '&', .litChar '.', .litChar ',', .litChar '-' ]

/-- Core of `' '.join(name.split())` after leading whitespace has been
dropped: collapse every whitespace run into a single space; `pend` records
that whitespace was seen since the last emitted character. -/
def collapseAux : List Char → Bool → List Char
  | [], _ => []
  | c :: cs, pend =>
    if c.isWhitespace then collapseAux cs true
    else if pend then ' ' :: c :: collapseAux cs false
    else c :: collapseAux cs false

/-- `' '.join(s.split())`: split on whitespace runs and re-join with single
spaces (which also trims both ends). -/
def normWs (s : List Char) : List Char :=
  collapseAux (s.dropWhile Char.isWhitespace) false

/-- Python `str.strip()`: remove leading and trailing whitespace. -/
def stripList (s : List Char) : List Char :=
  ((s.dropWhile Char.isWhitespace).reverse.dropWhile Char.isWhitespace).reverse

/-- ASCII lower-case test (`a`-`z`), as used by Python `str.upper` on the
ASCII names handled here. -/
def isLowerA (c : Char) : Bool :=
  decide (97 ≤ c.toNat) && decide (c.toNat ≤ 122)

/-- Python `str.upper` restricted to ASCII: map `a`-`z` to `A`-`Z`. -/
def pyUpper (c : Char) : Char :=
  if isLowerA c then Char.ofNat (c.toNat - 32) else c

/-- `clean_bank_name`: standardize a bank name for matching.  The input is
`none` for a NaN cell (`pd.isna`).  Mirrors the source: upper-case, apply
every `remove_terms` regex substitution in order, normalize whitespace,
strip. -/
def clean_bank_name (name : Option (List Char)) : List Char :=
  match name with
  | none => []
  | some s =>
    let up := s.map pyUpper
    let removed := removeTerms.foldl applyTerm up
    stripList (normWs removed)

/-! ### Fuzzy matching (`build_cik_rssd_mapping`) -/

/-- One row of `bank_registry.csv`: an RSSD identifier and the bank's name
(`none` for a NaN cell). -/
structure RegistryRow where
  rssd : Nat
  bankName : Option (List Char)
deriving DecidableEq, Repr

/-- One row of `Edgar/bank_company_summary.csv`: a CIK and the company
name column. -/
structure EdgarCompanyRow where
  cik : Nat
  name : Option (List Char)
deriving DecidableEq, Repr

/-- The Edgar company summary file: whether one of the recognized
company-name columns is present, and the data rows. -/
structure EdgarCompanies where
  hasNameCol : Bool
  rows : List EdgarCompanyRow
deriving DecidableEq, Repr

/-- One row of the CIK-RSSD mapping DataFrame; its fields are exactly the
columns `CIK`, `RSSD_ID`, `Edgar_Name`, `FFIEC_Name`, `Match_Score`. -/
structure MappingRow where
  cik : Nat
  rssd : Nat
  edgarName : Option (List Char)
  ffiecName : Option (List Char)
  score : Nat
deriving DecidableEq, Repr

/-- `fuzzywuzzy.process.extractOne(query, choices, scorer)`: scan the
choices and keep the first one attaining the maximal score; `none` exactly
when the choice list is empty.  The scorer (`fuzz.token_sort_ratio`
together with the library's default string processor) is an opaque
third-party function, taken here as a parameter. -/
def extractOne (scorer : List Char → List Char → Nat) (q : List Char)
    (choices : List (List Char)) : Option (List Char × Nat) :=
  choices.foldl (fun acc c =>
    match acc with
    | none => some (c, scorer q c)
    | some (b, s) => if s < scorer q c then some (c, scorer q c) else some (b, s)) none

/-- The fuzzy-matching loop of `build_cik_rssd_mapping`: for each row of
the cleaned registry, one `process.extractOne` call over the cleaned Edgar
name list; append one record when the best match scores at least 80, built
from the Edgar row at `edgar_names.index(best_match[0])`. -/
def buildMappingMatches (scorer : List Char → List Char → Nat)
    (registryClean : List RegistryRow) (edgarClean : List EdgarCompanyRow) :
    List MappingRow :=
  let edgarNames := edgarClean.map (fun e => clean_bank_name e.name)
  registryClean.filterMap (fun r =>
    match extractOne scorer (clean_bank_name r.bankName) edgarNames with
    | none => none
    | some (b, s) =>
      if 80 ≤ s then
        match edgarClean[edgarNames.findIdx (fun n => n == b)]? with
        | none => none
        | some e => some ⟨e.cik, r.rssd, e.name, r.bankName, s⟩
      else none)

/-- Names of the files either script can write. -/
inductive FileName where
  | finalOutput
  | cikRssdMapping
  | outputPdf
deriving DecidableEq, Repr

/-- `build_cik_rssd_mapping(registry)`: return an existing mapping file
unchanged; with no Edgar company file, or no recognizable name column,
return the empty mapping DataFrame; otherwise clean both name lists,
fuzzy-match, and save the fresh mapping to `CIK_RSSD_MAPPING`.  The second
component lists the files this step writes. -/
def build_cik_rssd_mapping (scorer : List Char → List Char → Nat)
    (existingMapping : Option (List MappingRow))
    (edgarCompanies : Option EdgarCompanies)
    (registry : List RegistryRow) : List MappingRow × List FileName :=
  match existingMapping with
  | some m => (m, [])
  | none =>
    match edgarCompanies with
    | none => ([], [])
    | some ec =>
      if ec.hasNameCol then
        let registryClean := registry.filter (fun r => !(clean_bank_name r.bankName).isEmpty)
        let edgarClean := ec.rows.filter (fun e => !(clean_bank_name e.name).isEmpty)
        (buildMappingMatches scorer registryClean edgarClean, [FileName.cikRssdMapping])
      else ([], [])

/-! ### Generic dataframe operations: groupby, sort_values, pct_change -/

/-- `df.groupby(key)`: the distinct key values (first-occurrence order,
NaN keys excluded by the callers) each paired with the rows of that
group, in frame order. -/
def groupByKey {α K : Type} [DecidableEq K] (key : α → K) (l : List α) :
    List (K × List α) :=
  ((l.map key).dedup).map (fun k => (k, l.filter (fun x => decide (key x = k))))

/-- Aggregator `'first'` of pandas groupby: the first non-null value of
the column within the group. -/
def firstSome {β : Type} (l : List (Option β)) : Option β :=
  (l.filterMap id).head?

/-- `df.sort_values([k, y])` ordering: lexicographic on a primary and a
secondary sort key. -/
def lexLe {α β γ : Type} [LinearOrder β] [LinearOrder γ]
    (k : α → β) (y : α → γ) (a b : α) : Prop :=
  k a < k b ∨ (k a = k b ∧ y a ≤ y b)

instance lexLe.decidableRel {α β γ : Type} [LinearOrder β] [LinearOrder γ]
    (k : α → β) (y : α → γ) : DecidableRel (lexLe k y) := fun a b => by
  unfold lexLe; infer_instance

instance lexLe.isTotal {α β γ : Type} [LinearOrder β] [LinearOrder γ]
    (k : α → β) (y : α → γ) : IsTotal α (lexLe k y) := by
  constructor
  intro a b
  rcases lt_trichotomy (k a) (k b) with h | h | h
  · exact Or.inl (Or.inl h)
  · rcases le_total (y a) (y b) with h2 | h2
    · exact Or.inl (Or.inr ⟨h, h2⟩)
    · exact Or.inr (Or.inr ⟨h.symm, h2⟩)
  · exact Or.inr (Or.inl h)

instance lexLe.isTrans {α β γ : Type} [LinearOrder β] [LinearOrder γ]
    (k : α → β) (y : α → γ) : IsTrans α (lexLe k y) := by
  constructor
  rintro a b c (h1 | ⟨h1, h1'⟩) (h2 | ⟨h2, h2'⟩)
  · exact Or.inl (h1.trans h2)
  · exact Or.inl (h2 ▸ h1)
  · exact Or.inl (h1 ▸ h2)
  · exact Or.inr ⟨h1.trans h2, h1'.trans h2'⟩

/-- `df.sort_values([k, y])`. -/
def sortValues {α β γ : Type} [LinearOrder β] [LinearOrder γ]
    (k : α → β) (y : α → γ) (l : List α) : List α :=
  l.insertionSort (lexLe k y)

/-- Engine of `df.groupby(key)[col].pct_change()`: for each row, pair it
with its growth value, computed against the last earlier row of the frame
with the same group key (`seen` is the already-processed prefix).  The
first row of each group gets `none` (NaN). -/
def pctAux {α K : Type} [DecidableEq K] (key : α → K) (val : α → ℚ) :
    List α → List α → List (α × Option ℚ)
  | _, [] => []
  | seen, r :: rest =>
    (r, ((seen.filter (fun p => decide (key p = key r))).getLast?).map
          (fun p => (val r - val p) / val p))
      :: pctAux key val (seen ++ [r]) rest

/-- `df.groupby(key)[col].pct_change()` over the whole frame. -/
def withPctChange {α K : Type} [DecidableEq K] (key : α → K) (val : α → ℚ)
    (rows : List α) : List (α × Option ℚ) :=
  pctAux key val [] rows

/-- The last non-null value of a nullable column prefix: the value that
`fillna(method='pad')` (forward fill) leaves at the end of the prefix,
`none` when the prefix has no non-null value. -/
def lastFilled (vals : List (Option ℚ)) : Option ℚ :=
  (vals.filterMap id).getLast?

/-- Engine of `df.groupby(key)[col].pct_change()` on a nullable column,
with the default `fill_method='pad'`: the column is forward-filled within
each group before the change is computed, so a row's growth is taken
against the last earlier row of its group carrying a non-null value, a
row whose own value is null contributes its forward-filled value (giving
growth `0`), and the growth is `none` (NaN) while the group has no
earlier non-null value — in particular on each group's first row. -/
def pctAuxFF {α K : Type} [DecidableEq K] (key : α → K) (val : α → Option ℚ) :
    List α → List α → List (α × Option ℚ)
  | _, [] => []
  | seen, r :: rest =>
    (r, (lastFilled (((seen.filter (fun p => decide (key p = key r)))).map
          val)).map (fun bv => ((val r).getD bv - bv) / bv))
      :: pctAuxFF key val (seen ++ [r]) rest

/-- `df.groupby(key)[col].pct_change()` on a nullable column, over the
whole frame. -/
def withPctChangeFF {α K : Type} [DecidableEq K] (key : α → K)
    (val : α → Option ℚ) (rows : List α) : List (α × Option ℚ) :=
  pctAuxFF key val [] rows

/-! ### Step 2: `load_and_aggregate_sod` -/

/-- One branch record of a SOD csv after the type conversions of the
source (`to_numeric(..., errors='coerce')` makes `CERT`, `YEAR`, `DEPSUM`
nullable numbers; `RSSDID` is a stripped string; `BRNUM` is counted
non-null). -/
structure SodRecord where
  cert : Option ℚ
  rssdid : List Char
  year : Option ℚ
  depsum : Option ℚ
  brnum : Option ℚ
  namefull : Option (List Char)
  asset : Option ℚ
deriving DecidableEq, Repr

/-- One bank-year row of the SOD aggregate (`sod_agg`), after renaming. -/
structure SodAggRow where
  fdicCert : ℚ
  year : ℚ
  totalBranches : ℚ
  totalDepositsSod : ℚ
  rssdIdSod : Option (List Char)
  bankNameSod : Option (List Char)
  totalAssetsSod : Option ℚ
  depositsPerBranch : ℚ
  branchGrowth : Option ℚ
deriving DecidableEq, Repr

/-- Aggregate one `(CERT, YEAR)` group: count non-null `BRNUM`, sum
`DEPSUM`, keep the first `RSSDID`/`NAMEFULL`/`ASSET`, and compute deposits
per branch.  `Branch_Growth_YoY` is attached later. -/
def mkSodAgg (k : ℚ × ℚ) (g : List SodRecord) : SodAggRow :=
  let branches : ℚ := ((g.filter (fun r => r.brnum.isSome)).length : ℚ)
  let deposits : ℚ := (g.filterMap (fun r => r.depsum)).sum
  ⟨k.1, k.2, branches, deposits,
   (g.map (fun r => r.rssdid)).head?,
   firstSome (g.map (fun r => r.namefull)),
   firstSome (g.map (fun r => r.asset)),
   deposits / branches, none⟩

/-- Write the `Branch_Growth_YoY` column computed by
`groupby('FDIC_Cert')['Total_Branches'].pct_change()` into the rows. -/
def setBranchGrowth (r : SodAggRow) (g : Option ℚ) : SodAggRow :=
  ⟨r.fdicCert, r.year, r.totalBranches, r.totalDepositsSod, r.rssdIdSod,
   r.bankNameSod, r.totalAssetsSod, r.depositsPerBranch, g⟩

/-- `load_and_aggregate_sod()`: the SOD file list is the glob result (a
`none` entry is a file whose `read_csv` raised).  Returns `none` when no
file matches or none loads; otherwise concatenates, drops records with
invalid `CERT`/`YEAR`, aggregates to bank-year level, sorts by
`(FDIC_Cert, Year)` and attaches the year-over-year branch growth. -/
def load_and_aggregate_sod (files : List (Option (List SodRecord))) :
    Option (List SodAggRow) :=
  if files.isEmpty then none
  else
    let loaded := files.filterMap id
    if loaded.isEmpty then none
    else
      let sodDf := loaded.foldr (fun f acc => f ++ acc) []
      let valid := sodDf.filter (fun r => r.cert.isSome && r.year.isSome)
      let agg := (groupByKey (fun r => (r.cert.getD 0, r.year.getD 0)) valid).map
        (fun kg => mkSodAgg kg.1 kg.2)
      let sorted := sortValues (fun r => r.fdicCert) (fun r => r.year) agg
      some ((withPctChange (fun r => r.fdicCert) (fun r => r.totalBranches) sorted).map
        (fun p => setBranchGrowth p.1 p.2))

/-! ### Step 4: `process_edgar_annual` and `process_edgar_quarterly` -/

/-- One SEC filing row.  `form` is the form-type cell (`none` = NaN);
`date` is the filing date parsed by `pd.to_datetime(..., errors='coerce')`
(`none` = NaT), represented as the pair (calendar year, total order on
dates). -/
structure EdgarFiling where
  cik : Nat
  form : Option (List Char)
  date : Option (ℚ × ℚ)
deriving DecidableEq, Repr

/-- An Edgar filings csv: whether a recognized form-type column and a
recognized date column are present, and the rows. -/
structure EdgarFilingsFile where
  hasFormCol : Bool
  hasDateCol : Bool
  rows : List EdgarFiling
deriving DecidableEq, Repr

/-- One bank-year row of the Edgar annual aggregate. -/
structure EdgarAnnualAgg where
  rssdId : Nat
  year : ℚ
  totalAnnualFilings : Nat
  has10K : Bool
  hasDEF14A : Bool
  filingCount10K : Nat
  filingCountDEF14A : Nat
  filingDate10K : Option ℚ
  filingDateDEF14A : Option ℚ
deriving DecidableEq, Repr

/-- One bank-year row of the Edgar quarterly aggregate.  The source sets
`Has_10Q = True` on every aggregated row. -/
structure EdgarQuarterlyAgg where
  rssdId : Nat
  year : ℚ
  filingCount10Q : Nat
  has10Q : Bool
deriving DecidableEq, Repr

/-- Substring test (used for `Series.str.contains(pat, case=False)`). -/
def isSubstr (needle : List Char) : List Char → Bool
  | [] => (dropPat needle []).isSome
  | c :: cs => (dropPat needle (c :: cs)).isSome || isSubstr needle cs

/-- `form.str.contains(pat, case=False, na=False)` on one cell: NaN counts
as `False`, comparison is case-insensitive (`pat` is given upper-case). -/
def containsCI (needle : List Char) : Option (List Char) → Bool
  | none => false
  | some t => isSubstr needle (t.map pyUpper)

/-- Inner merge of the filings with `cik_rssd_mapping[['CIK','RSSD_ID']]`
on CIK: each filing paired with the RSSD of every mapping row sharing its
CIK. -/
def innerJoinFilings (filings : List EdgarFiling) (mapping : List MappingRow) :
    List (EdgarFiling × Nat) :=
  filings.foldr
    (fun fl acc =>
      (mapping.filter (fun m => m.cik == fl.cik)).map (fun m => (fl, m.rssd)) ++ acc)
    []

/-- Aggregate one `(RSSD_ID, Year)` group of annual filings. -/
def mkAnnualAgg (k : Nat × ℚ) (g : List (EdgarFiling × Nat)) : EdgarAnnualAgg :=
  let is10K := fun p : EdgarFiling × Nat => containsCI "10-K".toList p.1.form
  let isDEF := fun p : EdgarFiling × Nat => containsCI "DEF 14A".toList p.1.form
  let has10K := g.any is10K
  let hasDEF := g.any isDEF
  ⟨k.1, k.2, g.length, has10K, hasDEF,
   (g.filter is10K).length, (g.filter isDEF).length,
   if has10K then ((g.filter is10K).filterMap (fun p => p.1.date.map Prod.snd)).min?
   else none,
   if hasDEF then ((g.filter isDEF).filterMap (fun p => p.1.date.map Prod.snd)).min?
   else none⟩

/-- `process_edgar_annual(cik_rssd_mapping)`: `none` when the mapping is
empty, the annual filings file is absent, or a required column is missing;
otherwise extract the filing year, inner-merge with the mapping and
aggregate per `(RSSD_ID, Year)` (groupby drops rows whose year is NaN and
iterates keys in sorted order). -/
def process_edgar_annual (mapping : List MappingRow)
    (file : Option EdgarFilingsFile) : Option (List EdgarAnnualAgg) :=
  if mapping.isEmpty then none
  else
    match file with
    | none => none
    | some f =>
      if f.hasFormCol && f.hasDateCol then
        let merged := innerJoinFilings f.rows mapping
        let withYear := merged.filter (fun p => p.1.date.isSome)
        let groups := groupByKey
          (fun p => (p.2, (p.1.date.map Prod.fst).getD 0)) withYear
        some (sortValues (fun r => r.rssdId) (fun r => r.year)
          (groups.map (fun kg => mkAnnualAgg kg.1 kg.2)))
      else none

/-- Aggregate one `(RSSD_ID, Year)` group of quarterly filings: count the
filings and set `Has_10Q = True`. -/
def mkQuarterlyAgg (k : Nat × ℚ) (g : List (EdgarFiling × Nat)) :
    EdgarQuarterlyAgg :=
  ⟨k.1, k.2, g.length, true⟩

/-- `process_edgar_quarterly(cik_rssd_mapping)`: `none` when the mapping
is empty, the quarterly filings file is absent, or the date column is
missing; otherwise inner-merge with the mapping and aggregate per
`(RSSD_ID, Year)`. -/
def process_edgar_quarterly (mapping : List MappingRow)
    (file : Option EdgarFilingsFile) : Option (List EdgarQuarterlyAgg) :=
  if mapping.isEmpty then none
  else
    match file with
    | none => none
    | some f =>
      if f.hasDateCol then
        let merged := innerJoinFilings f.rows mapping
        let withYear := merged.filter (fun p => p.1.date.isSome)
        let groups := groupByKey
          (fun p => (p.2, (p.1.date.map Prod.fst).getD 0)) withYear
        some (sortValues (fun r => r.rssdId) (fun r => r.year)
          (groups.map (fun kg => mkQuarterlyAgg kg.1 kg.2)))
      else none

/-! ### Step 5: `merge_all_datasets` -/

/-- One row of the FFIEC annual dataset (the columns the integration
touches; the many remaining Call-Report columns ride along unchanged).
`Total_Assets` is a nullable float column — the Call-Report financials
are not complete, so a row may carry no value (NaN). -/
structure FfiecRow where
  rssdId : Nat
  fdicCert : ℚ
  year : ℚ
  totalAssets : Option ℚ
deriving DecidableEq, Repr

/-- One row of the final integrated dataset: the FFIEC base row, the
left-merged SOD and Edgar payloads (`none` = no match / columns all NaN),
and the derived columns.  A `none` in `has10K`, `hasDEF14A`, `has10Q`,
`branchEffPct` or `isPublicCompany` means the column is absent or NaN. -/
structure FinalRow where
  base : FfiecRow
  sod : Option SodAggRow
  edgarA : Option EdgarAnnualAgg
  edgarQ : Option EdgarQuarterlyAgg
  has10K : Option Bool
  hasDEF14A : Option Bool
  has10Q : Option Bool
  branchEffPct : Option ℚ
  assetGrowth : Option ℚ
  isPublicCompany : Option Bool
deriving DecidableEq, Repr

/-- Start of the merge: the FFIEC frame with no merged columns. -/
def initRow (f : FfiecRow) : FinalRow :=
  ⟨f, none, none, none, none, none, none, none, none, none⟩

/-- `pd.merge(..., how='left')`: each left row paired with every matching
right row, or with `none` when no right row matches. -/
def leftJoin {β : Type} (right : List β) (km : FinalRow → β → Bool)
    (attach : FinalRow → Option β → FinalRow) : List FinalRow → List FinalRow
  | [] => []
  | r :: rs =>
    (match right.filter (km r) with
     | [] => [attach r none]
     | m :: ms => (m :: ms).map (fun x => attach r (some x))) ++
      leftJoin right km attach rs

/-- Attach the SOD columns of a merged row. -/
def setSod (r : FinalRow) (s : Option SodAggRow) : FinalRow :=
  ⟨r.base, s, r.edgarA, r.edgarQ, r.has10K, r.hasDEF14A, r.has10Q,
   r.branchEffPct, r.assetGrowth, r.isPublicCompany⟩

/-- Attach the Edgar annual columns of a merged row (in particular the
raw `Has_10K`/`Has_DEF14A` columns, still NaN on unmatched rows). -/
def setEdgarA (r : FinalRow) (e : Option EdgarAnnualAgg) : FinalRow :=
  ⟨r.base, r.sod, e, r.edgarQ, e.map (fun a => a.has10K),
   e.map (fun a => a.hasDEF14A), r.has10Q, r.branchEffPct, r.assetGrowth,
   r.isPublicCompany⟩

/-- `final_df[col].fillna(False)` for `Has_10K` and `Has_DEF14A`. -/
def fillAnnualFlags (r : FinalRow) : FinalRow :=
  ⟨r.base, r.sod, r.edgarA, r.edgarQ, some (r.has10K.getD false),
   some (r.hasDEF14A.getD false), r.has10Q, r.branchEffPct, r.assetGrowth,
   r.isPublicCompany⟩

/-- Attach the Edgar quarterly columns of a merged row. -/
def setEdgarQ (r : FinalRow) (e : Option EdgarQuarterlyAgg) : FinalRow :=
  ⟨r.base, r.sod, r.edgarA, e, r.has10K, r.hasDEF14A,
   e.map (fun a => a.has10Q), r.branchEffPct, r.assetGrowth,
   r.isPublicCompany⟩

/-- `final_df['Has_10Q'].fillna(False)`. -/
def fillQuarterlyFlag (r : FinalRow) : FinalRow :=
  ⟨r.base, r.sod, r.edgarA, r.edgarQ, r.has10K, r.hasDEF14A,
   some (r.has10Q.getD false), r.branchEffPct, r.assetGrowth,
   r.isPublicCompany⟩

/-- `groupby('Year')[col].rank(pct=True)` on one cell: NaN stays NaN,
otherwise the average rank of the value among the group's non-null values,
divided by their count. -/
def rankPct (vals : List (Option ℚ)) : Option ℚ → Option ℚ
  | none => none
  | some x =>
    let nn := vals.filterMap id
    some ((((nn.filter (fun z => decide (z < x))).length : ℚ) +
            (((nn.filter (fun z => decide (z = x))).length : ℚ) + 1) / 2) /
          (nn.length : ℚ))

/-- Write the `Branch_Efficiency_Percentile` column. -/
def setBranchEff (r : FinalRow) (v : Option ℚ) : FinalRow :=
  ⟨r.base, r.sod, r.edgarA, r.edgarQ, r.has10K, r.hasDEF14A, r.has10Q, v,
   r.assetGrowth, r.isPublicCompany⟩

/-- Write the `Asset_Growth_YoY` column. -/
def setAssetGrowth (r : FinalRow) (g : Option ℚ) : FinalRow :=
  ⟨r.base, r.sod, r.edgarA, r.edgarQ, r.has10K, r.hasDEF14A, r.has10Q,
   r.branchEffPct, g, r.isPublicCompany⟩

/-- `final_df['Is_Public_Company'] = final_df['Has_10K']`. -/
def setIsPublic (r : FinalRow) : FinalRow :=
  ⟨r.base, r.sod, r.edgarA, r.edgarQ, r.has10K, r.hasDEF14A, r.has10Q,
   r.branchEffPct, r.assetGrowth, r.has10K⟩

/-- SOD merge of `merge_all_datasets`: left join on `(FDIC_Cert, Year)`,
skipped when the SOD aggregate is `None`. -/
def mergeSodStep (df : List FinalRow) : Option (List SodAggRow) → List FinalRow
  | none => df
  | some s => leftJoin s
      (fun r m => decide ((m.fdicCert, m.year) = (r.base.fdicCert, r.base.year)))
      setSod df

/-- Edgar annual merge of `merge_all_datasets`: left join on
`(RSSD_ID, Year)` followed by `fillna(False)` on the flag columns, skipped
when the annual aggregate is `None`. -/
def mergeAnnualStep (df : List FinalRow) : Option (List EdgarAnnualAgg) → List FinalRow
  | none => df
  | some e => (leftJoin e
      (fun r m => decide ((m.rssdId, m.year) = (r.base.rssdId, r.base.year)))
      setEdgarA df).map fillAnnualFlags

/-- Edgar quarterly merge of `merge_all_datasets`: left join on
`(RSSD_ID, Year)` followed by `fillna(False)` on `Has_10Q`, skipped when
the quarterly aggregate is `None`. -/
def mergeQuarterlyStep (df : List FinalRow) :
    Option (List EdgarQuarterlyAgg) → List FinalRow
  | none => df
  | some q => (leftJoin q
      (fun r m => decide ((m.rssdId, m.year) = (r.base.rssdId, r.base.year)))
      setEdgarQ df).map fillQuarterlyFlag

/-- `Branch_Efficiency_Percentile`: computed only when the
`Deposits_Per_Branch` column exists, i.e. when the SOD aggregate was
merged; percentile rank within each `Year` group. -/
def branchEffStep (df : List FinalRow) (sodMerged : Bool) : List FinalRow :=
  if sodMerged then
    df.map (fun r => setBranchEff r
      (rankPct ((df.filter (fun x => decide (x.base.year = r.base.year))).map
          (fun x => x.sod.map (fun s => s.depositsPerBranch)))
        (r.sod.map (fun s => s.depositsPerBranch))))
  else df

/-- `Asset_Growth_YoY`: sort by `(RSSD_ID, Year)` then
`groupby('RSSD_ID')['Total_Assets'].pct_change()`; `Total_Assets` is
nullable, so the default forward fill of `pct_change` applies. -/
def assetGrowthStep (df : List FinalRow) : List FinalRow :=
  (withPctChangeFF (fun r => r.base.rssdId) (fun r => r.base.totalAssets)
    (sortValues (fun r => r.base.rssdId) (fun r => r.base.year) df)).map
    (fun p => setAssetGrowth p.1 p.2)

/-- `Is_Public_Company = Has_10K`, set only when the `Has_10K` column
exists, i.e. when the Edgar annual aggregate was merged. -/
def isPublicStep (df : List FinalRow) (annualMerged : Bool) : List FinalRow :=
  if annualMerged then df.map setIsPublic else df

/-- `merge_all_datasets(ffiec_df, sod_agg, edgar_annual_agg,
edgar_quarterly_agg)`: left-join the SOD aggregate on `(FDIC_Cert, Year)`
and the Edgar aggregates on `(RSSD_ID, Year)` (each skipped when `None`),
fill the Edgar boolean flags, rank branch efficiency within each year,
sort by `(RSSD_ID, Year)`, attach asset growth, and derive
`Is_Public_Company` from `Has_10K`. -/
def merge_all_datasets (ffiec : List FfiecRow) (sodAgg : Option (List SodAggRow))
    (edgarAnnualAgg : Option (List EdgarAnnualAgg))
    (edgarQuarterlyAgg : Option (List EdgarQuarterlyAgg)) : List FinalRow :=
  isPublicStep
    (assetGrowthStep
      (branchEffStep
        (mergeQuarterlyStep
          (mergeAnnualStep (mergeSodStep (ffiec.map initRow) sodAgg) edgarAnnualAgg)
          edgarQuarterlyAgg)
        sodAgg.isSome))
    edgarAnnualAgg.isSome

/-! ### Step 6 and main (`generate_quality_report`, `main`) and `help.py` -/

/-- The headline statistics printed by `generate_quality_report`. -/
structure QualityReport where
  totalRecords : Nat
  uniqueBanks : Nat
deriving DecidableEq, Repr

/-- `generate_quality_report(df)`: record count and unique-bank count. -/
def generate_quality_report (df : List FinalRow) : QualityReport :=
  ⟨df.length, ((df.map (fun r => r.base.rssdId)).dedup).length⟩

/-- The file inputs of one run of the integration script: the two FFIEC
csvs (assumed readable, since `main` reads them unconditionally), the SOD
glob result, and the optional mapping/Edgar files. -/
structure World where
  ffiec : List FfiecRow
  registry : List RegistryRow
  sodFiles : List (Option (List SodRecord))
  existingMapping : Option (List MappingRow)
  edgarCompanies : Option EdgarCompanies
  edgarAnnualFile : Option EdgarFilingsFile
  edgarQuarterlyFile : Option EdgarFilingsFile

/-- `load_ffiec_data()`: read the FFIEC annual dataset and the registry. -/
def load_ffiec_data (w : World) : List FfiecRow × List RegistryRow :=
  (w.ffiec, w.registry)

/-- `main()`: the linear pipeline.  Returns the final dataset saved to
`FINAL_OUTPUT`, the printed quality report, and the list of files written
(the mapping csv when freshly computed, then the final csv). -/
def mainRun (scorer : List Char → List Char → Nat) (w : World) :
    List FinalRow × QualityReport × List FileName :=
  let fr := load_ffiec_data w
  let sodAgg := load_and_aggregate_sod w.sodFiles
  let mapping := build_cik_rssd_mapping scorer w.existingMapping w.edgarCompanies fr.2
  let edgarAnnualAgg := process_edgar_annual mapping.1 w.edgarAnnualFile
  let edgarQuarterlyAgg := process_edgar_quarterly mapping.1 w.edgarQuarterlyFile
  let finalDf := merge_all_datasets fr.1 sodAgg edgarAnnualAgg edgarQuarterlyAgg
  let report := generate_quality_report finalDf
  (finalDf, report, mapping.2 ++ [FileName.finalOutput])

/-- The statistics `help.py` computes about the final dataset. -/
structure DataStats where
  totalRecords : Nat
  uniqueBanks : Nat
deriving DecidableEq, Repr

/-- `get_data_statistics(data_file)`: `None` when the dataset csv does not
exist, otherwise the dataset with its statistics. -/
def get_data_statistics (file : Option (List FinalRow)) :
    Option (DataStats × List FinalRow) :=
  match file with
  | none => none
  | some df =>
    some (⟨df.length, ((df.map (fun r => r.base.rssdId)).dedup).length⟩, df)

/-- `create_data_dictionary_pdf(data_file, output_pdf)` of `help.py`:
returns the list of files written — nothing when the dataset is missing,
otherwise exactly the PDF at `OUTPUT_PDF`. -/
def create_data_dictionary_pdf (dataFile : Option (List FinalRow)) :
    List FileName :=
  match get_data_statistics dataFile with
  | none => []
  | some _ => [FileName.outputPdf]

/-! ### Claim-side definitions for the fuzzy-matching claims -/

/-- Spec-side predicate of C2: the registry row has a best Edgar match
(one `process.extractOne` call) whose score is at least 80. -/
def bestMatchOK (scorer : List Char → List Char → Nat)
    (edgarNames : List (List Char)) (r : RegistryRow) : Bool :=
  match extractOne scorer (clean_bank_name r.bankName) edgarNames with
  | none => false
  | some (_, s) => 80 ≤ s

/-- Spec-side record of C2/C9: the single mapping record appended for a
registry row — RSSD and FFIEC name from the registry row, CIK and Edgar
name from the first Edgar row whose cleaned name equals the best-match
string, score from the best match. -/
def matchRecord (scorer : List Char → List Char → Nat)
    (edgarClean : List EdgarCompanyRow) (r : RegistryRow) : MappingRow :=
  match extractOne scorer (clean_bank_name r.bankName)
      (edgarClean.map (fun e => clean_bank_name e.name)) with
  | none => ⟨0, r.rssd, none, r.bankName, 0⟩
  | some (b, s) =>
    match edgarClean.find? (fun e => clean_bank_name e.name == b) with
    | none => ⟨0, r.rssd, none, r.bankName, s⟩
    | some e => ⟨e.cik, r.rssd, e.name, r.bankName, s⟩

/-! ### C5: the program is a linear pipeline -/

/-- C5: `main` is exactly the linear sequence load, clean, aggregate,
match, merge, report: it calls `load_ffiec_data`, `load_and_aggregate_sod`,
`build_cik_rssd_mapping`, `process_edgar_annual`,
`process_edgar_quarterly`, `merge_all_datasets` and
`generate_quality_report` in this order and exactly once each, passing
results only through in-memory values (steps receiving `None` or empty
inputs degrade internally), and then saves the final csv. -/
theorem mainRun_is_linear_pipeline (scorer : List Char → List Char → Nat)
    (w : World) :
    mainRun scorer w =
      (merge_all_datasets (load_ffiec_data w).1 (load_and_aggregate_sod w.sodFiles)
         (process_edgar_annual
           (build_cik_rssd_mapping scorer w.existingMapping w.edgarCompanies
             (load_ffiec_data w).2).1 w.edgarAnnualFile)
         (process_edgar_quarterly
           (build_cik_rssd_mapping scorer w.existingMapping w.edgarCompanies
             (load_ffiec_data w).2).1 w.edgarQuarterlyFile),
       generate_quality_report
         (merge_all_datasets (load_ffiec_data w).1 (load_and_aggregate_sod w.sodFiles)
           (process_edgar_annual
             (build_cik_rssd_mapping scorer w.existingMapping w.edgarCompanies
               (load_ffiec_data w).2).1 w.edgarAnnualFile)
           (process_edgar_quarterly
             (build_cik_rssd_mapping scorer w.existingMapping w.edgarCompanies
               (load_ffiec_data w).2).1 w.edgarQuarterlyFile)),
       (build_cik_rssd_mapping scorer w.existingMapping w.edgarCompanies
         (load_ffiec_data w).2).2 ++ [FileName.finalOutput]) := rfl

/-! ### C3: missing inputs print and return early -/

/-- C3: missing-input situations return early rather than raising: an
empty SOD glob or no successfully loaded SOD file makes
`load_and_aggregate_sod` return `None`; a missing Edgar company file or
unrecognizable name column makes `build_cik_rssd_mapping` return the empty
mapping DataFrame (whose columns are the `MappingRow` fields `CIK`,
`RSSD_ID`, `Edgar_Name`, `FFIEC_Name`, `Match_Score`); an empty mapping, a
missing filings file or missing required columns make
`process_edgar_annual` and `process_edgar_quarterly` return `None`.  All
the embedded functions are total, so no path raises. -/
theorem missing_inputs_degrade_gracefully :
    (load_and_aggregate_sod [] = none) ∧
    (∀ files : List (Option (List SodRecord)), files.filterMap id = [] →
      load_and_aggregate_sod files = none) ∧
    (∀ (scorer : List Char → List Char → Nat) (registry : List RegistryRow),
      (build_cik_rssd_mapping scorer none none registry).1 = []) ∧
    (∀ (scorer : List Char → List Char → Nat) (ec : EdgarCompanies)
        (registry : List RegistryRow), ec.hasNameCol = false →
      (build_cik_rssd_mapping scorer none (some ec) registry).1 = []) ∧
    (∀ file, process_edgar_annual [] file = none) ∧
    (∀ mapping, process_edgar_annual mapping none = none) ∧
    (∀ mapping f, (f.hasFormCol && f.hasDateCol) = false →
      process_edgar_annual mapping (some f) = none) ∧
    (∀ file, process_edgar_quarterly [] file = none) ∧
    (∀ mapping, process_edgar_quarterly mapping none = none) ∧
    (∀ mapping f, f.hasDateCol = false →
      process_edgar_quarterly mapping (some f) = none) := by
  refine ⟨?_, ?_, ?_, ?_, ?_, ?_, ?_, ?_, ?_, ?_⟩
  · rfl
  · intro files h
    simp [load_and_aggregate_sod, h]
  · intro scorer registry
    rfl
  · intro scorer ec registry h
    simp [build_cik_rssd_mapping, h]
  · intro file
    simp [process_edgar_annual]
  · intro mapping
    simp [process_edgar_annual]
  · intro mapping f h
    simp [process_edgar_annual, h]
  · intro file
    simp [process_edgar_quarterly]
  · intro mapping
    simp [process_edgar_quarterly]
  · intro mapping f h
    simp [process_edgar_quarterly, h]

/-- Witness for C3 at concrete inputs. -/
theorem missing_inputs_degrade_gracefully_witness :
    load_and_aggregate_sod [none] = none ∧
    (build_cik_rssd_mapping (fun _ _ => 0) none (some ⟨false, []⟩) []).1 = [] ∧
    process_edgar_annual [] (some ⟨true, true, []⟩) = none ∧
    process_edgar_quarterly [⟨1, 2, none, none, 90⟩] (some ⟨true, false, []⟩) = none :=
  ⟨missing_inputs_degrade_gracefully.2.1 [none] rfl,
   missing_inputs_degrade_gracefully.2.2.2.1 (fun _ _ => 0) ⟨false, []⟩ [] rfl,
   missing_inputs_degrade_gracefully.2.2.2.2.1 (some ⟨true, true, []⟩),
   missing_inputs_degrade_gracefully.2.2.2.2.2.2.2.2.2 [⟨1, 2, none, none, 90⟩]
     ⟨true, false, []⟩ rfl⟩

/-! ### C6: the only persistent outputs -/

/-- C6: one complete run of the integration script writes at most two
files — always the final dataset csv (`FINAL_OUTPUT`), and the mapping csv
(`CIK_RSSD_MAPPING`) exactly when the mapping is freshly computed by fuzzy
matching (no existing mapping file, Edgar company file present with a
recognizable name column); the data-dictionary script writes only the PDF
at `OUTPUT_PDF`, and only when the dataset file exists. -/
theorem only_final_csv_mapping_csv_and_pdf_are_written
    (scorer : List Char → List Char → Nat) (w : World) :
    ((mainRun scorer w).2.2 = [FileName.finalOutput] ∨
      (mainRun scorer w).2.2 = [FileName.cikRssdMapping, FileName.finalOutput]) ∧
    (mainRun scorer w).2.2.length ≤ 2 ∧
    ((mainRun scorer w).2.2 = [FileName.cikRssdMapping, FileName.finalOutput] ↔
      w.existingMapping = none ∧
        ∃ ec, w.edgarCompanies = some ec ∧ ec.hasNameCol = true) ∧
    (∀ d : Option (List FinalRow), create_data_dictionary_pdf d = [] ∨
      create_data_dictionary_pdf d = [FileName.outputPdf]) ∧
    (∀ d : Option (List FinalRow),
      create_data_dictionary_pdf d = [FileName.outputPdf] ↔ d.isSome = true) := by
  have hpdf1 : ∀ d : Option (List FinalRow), create_data_dictionary_pdf d = [] ∨
      create_data_dictionary_pdf d = [FileName.outputPdf] := by
    intro d
    cases d with
    | none => exact Or.inl rfl
    | some df => exact Or.inr rfl
  have hpdf2 : ∀ d : Option (List FinalRow),
      create_data_dictionary_pdf d = [FileName.outputPdf] ↔ d.isSome = true := by
    intro d
    cases d with
    | none => simp [create_data_dictionary_pdf, get_data_statistics]
    | some df => simp [create_data_dictionary_pdf, get_data_statistics]
  obtain ⟨ff, reg, sf, em, ecs, af, qf⟩ := w
  cases em with
  | some m =>
    exact ⟨Or.inl rfl, by simp [mainRun, build_cik_rssd_mapping],
      by simp [mainRun, build_cik_rssd_mapping], hpdf1, hpdf2⟩
  | none =>
    cases ecs with
    | none =>
      exact ⟨Or.inl rfl, by simp [mainRun, build_cik_rssd_mapping],
        by simp [mainRun, build_cik_rssd_mapping], hpdf1, hpdf2⟩
    | some ec =>
      by_cases h : ec.hasNameCol
      · refine ⟨Or.inr ?_, ?_, ?_, hpdf1, hpdf2⟩
        · simp [mainRun, build_cik_rssd_mapping, h]
        · simp [mainRun, build_cik_rssd_mapping, h]
        · simp [mainRun, build_cik_rssd_mapping, h]
      · refine ⟨Or.inl ?_, ?_, ?_, hpdf1, hpdf2⟩
        · simp [mainRun, build_cik_rssd_mapping, h]
        · simp [mainRun, build_cik_rssd_mapping, h]
        · simp [mainRun, build_cik_rssd_mapping, h]

/-- Witness for C6 at a concrete world. -/
theorem only_final_csv_mapping_csv_and_pdf_are_written_witness :
    ((mainRun (fun _ _ => 0) ⟨[], [], [], none, none, none, none⟩).2.2 =
        [FileName.finalOutput] ∨
      (mainRun (fun _ _ => 0) ⟨[], [], [], none, none, none, none⟩).2.2 =
        [FileName.cikRssdMapping, FileName.finalOutput]) :=
  (only_final_csv_mapping_csv_and_pdf_are_written (fun _ _ => 0)
    ⟨[], [], [], none, none, none, none⟩).1

/-! ### C2 and C9: the fuzzy-matching loop -/

lemma extractOne_foldl_mem (scorer : List Char → List Char → Nat) (q : List Char) :
    ∀ (l : List (List Char)) (acc : Option (List Char × Nat)) (b : List Char) (s : Nat),
      l.foldl (fun acc c =>
        match acc with
        | none => some (c, scorer q c)
        | some (b, s) => if s < scorer q c then some (c, scorer q c)
          else some (b, s)) acc = some (b, s) →
      acc = some (b, s) ∨ b ∈ l := by
  intro l
  induction l with
  | nil => intro acc b s h; exact Or.inl h
  | cons c cs ih =>
    intro acc b s h
    rw [List.foldl_cons] at h
    rcases ih _ b s h with h2 | h2
    · cases acc with
      | none =>
        simp only [Option.some.injEq, Prod.mk.injEq] at h2
        exact Or.inr (h2.1 ▸ List.mem_cons_self c cs)
      | some p =>
        obtain ⟨b0, s0⟩ := p
        by_cases hlt : s0 < scorer q c
        · simp only [hlt, if_true, Option.some.injEq, Prod.mk.injEq] at h2
          exact Or.inr (h2.1 ▸ List.mem_cons_self c cs)
        · simp only [hlt, if_false] at h2
          exact Or.inl h2
    · exact Or.inr (List.mem_cons_of_mem c h2)

/-- `process.extractOne` returns an element of the choice list. -/
lemma extractOne_mem {scorer : List Char → List Char → Nat} {q b : List Char}
    {s : Nat} {l : List (List Char)} (h : extractOne scorer q l = some (b, s)) :
    b ∈ l := by
  rcases extractOne_foldl_mem scorer q l none b s h with h2 | h2
  · exact absurd h2 (by simp)
  · exact h2

/-- `edgar_clean.iloc[edgar_names.index(b)]` is the first row whose
cleaned name equals `b`. -/
lemma getElem_findIdx_eq_find? {α β : Type} [BEq β] [LawfulBEq β] (f : α → β)
    (l : List α) (b : β) (h : b ∈ l.map f) :
    l[(l.map f).findIdx (fun n => n == b)]? = l.find? (fun e => f e == b) := by
  induction l with
  | nil => simp at h
  | cons a as ih =>
    by_cases hb : (f a == b) = true
    · simp [List.map_cons, List.findIdx_cons, hb, List.find?_cons]
    · have hbf : (f a == b) = false := by simpa using hb
      have hb2 : b ∈ as.map f := by
        rw [List.map_cons, List.mem_cons] at h
        rcases h with hx | hx
        · exact absurd (by simp [hx]) hb
        · exact hx
      simp only [List.map_cons, List.findIdx_cons, hbf, cond_false,
        List.getElem?_cons_succ, List.find?_cons]
      exact ih hb2

lemma find?_filter_of_imp {α : Type} (p q : α → Bool) (l : List α)
    (himp : ∀ x, p x = true → q x = true) :
    (l.filter q).find? p = l.find? p := by
  induction l with
  | nil => rfl
  | cons a as ih =>
    by_cases hq : q a
    · rw [List.filter_cons_of_pos hq]
      by_cases hp : p a
      · rw [List.find?_cons_of_pos _ hp, List.find?_cons_of_pos _ hp]
      · rw [List.find?_cons_of_neg _ (by simp [hp]),
          List.find?_cons_of_neg _ (by simp [hp]), ih]
    · have hp : ¬ p a = true := fun hc => hq (himp a hc)
      rw [List.filter_cons_of_neg (by simpa using hq),
        List.find?_cons_of_neg _ (by simpa using hp), ih]

lemma filterMap_guard_eq {α β : Type} (f : α → Option β) (p : α → Bool) (g : α → β)
    (hf : ∀ x, f x = if p x then some (g x) else none) (l : List α) :
    l.filterMap f = (l.filter p).map g := by
  induction l with
  | nil => rfl
  | cons a as ih =>
    rw [List.filterMap_cons, hf a, List.filter_cons]
    by_cases hp : p a
    · simp [hp, ih]
    · simp [hp, ih]

lemma buildMappingFun_eq (scorer : List Char → List Char → Nat)
    (ed : List EdgarCompanyRow) (r : RegistryRow) :
    (match extractOne scorer (clean_bank_name r.bankName)
        (ed.map (fun e => clean_bank_name e.name)) with
     | none => none
     | some (b, s) =>
       if 80 ≤ s then
         match ed[(ed.map (fun e => clean_bank_name e.name)).findIdx
             (fun n => n == b)]? with
         | none => none
         | some e => some (⟨e.cik, r.rssd, e.name, r.bankName, s⟩ : MappingRow)
       else none)
    = if bestMatchOK scorer (ed.map (fun e => clean_bank_name e.name)) r then
        some (matchRecord scorer ed r)
      else none := by
  unfold bestMatchOK matchRecord
  cases hext : extractOne scorer (clean_bank_name r.bankName)
      (ed.map (fun e => clean_bank_name e.name)) with
  | none => simp
  | some bs =>
    obtain ⟨b, s⟩ := bs
    by_cases h80 : 80 ≤ s
    · have hmem : b ∈ ed.map (fun e => clean_bank_name e.name) := extractOne_mem hext
      rcases List.mem_map.1 hmem with ⟨e0, he0, heq⟩
      have hsome : (ed.find? (fun e => clean_bank_name e.name == b)).isSome := by
        rw [List.find?_isSome]
        exact ⟨e0, he0, by simp [heq]⟩
      rcases Option.isSome_iff_exists.1 hsome with ⟨e, he⟩
      have hrw : ed[(ed.map (fun e => clean_bank_name e.name)).findIdx
          (fun n => n == b)]? = some e := by
        rw [getElem_findIdx_eq_find? _ _ _ hmem, he]
      simp [h80, hrw, he]
    · simp [h80]

/-- The fuzzy loop appends, per cleaned registry row, exactly one record
when the single best match scores at least 80 and none otherwise. -/
lemma buildMappingMatches_eq (scorer : List Char → List Char → Nat)
    (reg : List RegistryRow) (ed : List EdgarCompanyRow) :
    buildMappingMatches scorer reg ed =
      (reg.filter (bestMatchOK scorer (ed.map (fun e => clean_bank_name e.name)))).map
        (matchRecord scorer ed) := by
  exact filterMap_guard_eq _ _ _ (fun r => buildMappingFun_eq scorer ed r) reg

/-- C2: approximate name matching is a single `process.extractOne` call
per cleaned registry row with the `fuzz.token_sort_ratio` scorer (the
opaque `scorer` parameter) over the cleaned Edgar name list; exactly one
mapping record is appended for a registry row if and only if a best match
exists with score at least 80, and the record is determined by that best
match alone — no other matching logic. -/
theorem fuzzy_matching_is_single_extractOne_call
    (scorer : List Char → List Char → Nat) (reg : List RegistryRow)
    (ed : List EdgarCompanyRow) :
    buildMappingMatches scorer reg ed =
      (reg.filter (bestMatchOK scorer (ed.map (fun e => clean_bank_name e.name)))).map
        (matchRecord scorer ed) :=
  buildMappingMatches_eq scorer reg ed

/-- C9: when the mapping is freshly computed by fuzzy matching, every
returned row scores at least 80, takes RSSD_ID and FFIEC_Name from one
registry row, and takes CIK and Edgar_Name from the first Edgar row whose
cleaned name equals the best-match string. -/
theorem fresh_mapping_rows_provenance (scorer : List Char → List Char → Nat)
    (ec : EdgarCompanies) (registry : List RegistryRow)
    (hcol : ec.hasNameCol = true) :
    ∀ row ∈ (build_cik_rssd_mapping scorer none (some ec) registry).1,
      80 ≤ row.score ∧
      (∃ r ∈ registry, clean_bank_name r.bankName ≠ [] ∧
        row.rssd = r.rssd ∧ row.ffiecName = r.bankName ∧
        ∃ b s, extractOne scorer (clean_bank_name r.bankName)
            ((ec.rows.filter (fun e => !(clean_bank_name e.name).isEmpty)).map
              (fun e => clean_bank_name e.name)) = some (b, s) ∧
          row.score = s ∧
          ∃ e, ec.rows.find? (fun e2 => clean_bank_name e2.name == b) = some e ∧
            row.cik = e.cik ∧ row.edgarName = e.name) := by
  obtain ⟨hnc, eRows⟩ := ec
  simp only at hcol
  subst hcol
  intro row hrow
  have hrow2 : row ∈ buildMappingMatches scorer
      (registry.filter (fun r => !(clean_bank_name r.bankName).isEmpty))
      (eRows.filter (fun e => !(clean_bank_name e.name).isEmpty)) := hrow
  rw [buildMappingMatches_eq] at hrow2
  rcases List.mem_map.1 hrow2 with ⟨r, hrf, hrec⟩
  rcases List.mem_filter.1 hrf with ⟨hrclean, hok⟩
  rcases List.mem_filter.1 hrclean with ⟨hrmem, hrne⟩
  unfold bestMatchOK at hok
  set edClean := eRows.filter (fun e => !(clean_bank_name e.name).isEmpty) with hedc
  cases hext : extractOne scorer (clean_bank_name r.bankName)
      (edClean.map (fun e => clean_bank_name e.name)) with
  | none => rw [hext] at hok; simp at hok
  | some bs =>
    obtain ⟨b, s⟩ := bs
    rw [hext] at hok
    have h80 : 80 ≤ s := by simpa using hok
    have hmem : b ∈ edClean.map (fun e => clean_bank_name e.name) := extractOne_mem hext
    rcases List.mem_map.1 hmem with ⟨e0, he0, heq⟩
    have hbne : b ≠ [] := by
      rcases List.mem_filter.1 he0 with ⟨_, hne⟩
      intro hb
      rw [heq, hb] at hne
      simp at hne
    have hsome : (edClean.find? (fun e => clean_bank_name e.name == b)).isSome := by
      rw [List.find?_isSome]
      exact ⟨e0, he0, by simp [heq]⟩
    rcases Option.isSome_iff_exists.1 hsome with ⟨e, he⟩
    have hfull : eRows.find? (fun e2 => clean_bank_name e2.name == b) = some e := by
      rw [← he, hedc]
      exact (find?_filter_of_imp (fun e2 => clean_bank_name e2.name == b)
        (fun e2 => !(clean_bank_name e2.name).isEmpty) eRows (by
          intro x hx
          have hxb : clean_bank_name x.name = b := by simpa using hx
          simp [hxb, List.isEmpty_iff, hbne])).symm
    have hrecv : row = matchRecord scorer edClean r := hrec.symm
    unfold matchRecord at hrecv
    rw [hext] at hrecv
    simp [he] at hrecv
    subst hrecv
    exact ⟨h80, r, hrmem, by simpa using hrne, rfl, rfl, b, s, hext, rfl, e, hfull,
      rfl, rfl⟩

/-- Witness for C9 at concrete inputs. -/
theorem fresh_mapping_rows_provenance_witness :
    80 ≤ (⟨7, 5, some "ACME BANK".toList, some "Acme Bank".toList, 100⟩ :
      MappingRow).score :=
  (fresh_mapping_rows_provenance (fun a b => if a == b then 100 else 0)
    ⟨true, [⟨7, some "ACME BANK".toList⟩]⟩ [⟨5, some "Acme Bank".toList⟩] rfl
    ⟨7, 5, some "ACME BANK".toList, some "Acme Bank".toList, 100⟩ (by decide)).1

/-! ### C8: properties of `clean_bank_name` -/

lemma mem_subPatAux (p0 : Char) (ps : List Char) :
    ∀ (s : List Char) (skip : Nat) (prev : Option Char) (c : Char),
      c ∈ subPatAux p0 ps skip prev s → c = ' ' ∨ c ∈ s := by
  intro s
  induction s with
  | nil =>
    intro skip prev c h
    simp [subPatAux] at h
  | cons a as ih =>
    intro skip prev c h
    cases skip with
    | succ k =>
      rw [subPatAux] at h
      rcases ih k (some a) c h with h2 | h2
      · exact Or.inl h2
      · exact Or.inr (List.mem_cons_of_mem a h2)
    | zero =>
      rw [subPatAux] at h
      split at h
      · split at h
        · rcases List.mem_cons.1 h with h2 | h2
          · exact Or.inl h2
          · rcases ih _ (some a) c h2 with h3 | h3
            · exact Or.inl h3
            · exact Or.inr (List.mem_cons_of_mem a h3)
        · rcases List.mem_cons.1 h with h2 | h2
          · exact Or.inr (h2 ▸ List.mem_cons_self a as)
          · rcases ih 0 (some a) c h2 with h3 | h3
            · exact Or.inl h3
            · exact Or.inr (List.mem_cons_of_mem a h3)
      · rcases List.mem_cons.1 h with h2 | h2
        · exact Or.inr (h2 ▸ List.mem_cons_self a as)
        · rcases ih 0 (some a) c h2 with h3 | h3
          · exact Or.inl h3
          · exact Or.inr (List.mem_cons_of_mem a h3)

lemma mem_applyTerm (t : RemoveTerm) (s : List Char) (c : Char)
    (h : c ∈ applyTerm s t) : c = ' ' ∨ c ∈ s := by
  cases t with
  | bword p =>
    cases p with
    | nil => exact Or.inr h
    | cons p0 ps => exact mem_subPatAux p0 ps s 0 none c h
  | litChar ch =>
    rcases List.mem_map.1 h with ⟨x, hx, hxc⟩
    by_cases hxy : x = ch
    · rw [if_pos hxy] at hxc
      exact Or.inl hxc.symm
    · rw [if_neg hxy] at hxc
      exact Or.inr (hxc ▸ hx)

lemma mem_foldl_applyTerm :
    ∀ (ts : List RemoveTerm) (s : List Char) (c : Char),
      c ∈ ts.foldl applyTerm s → c = ' ' ∨ c ∈ s := by
  intro ts
  induction ts with
  | nil => intro s c h; exact Or.inr h
  | cons t ts ih =>
    intro s c h
    rw [List.foldl_cons] at h
    rcases ih (applyTerm s t) c h with h2 | h2
    · exact Or.inl h2
    · exact mem_applyTerm t s c h2

lemma mem_collapseAux :
    ∀ (s : List Char) (pend : Bool) (c : Char),
      c ∈ collapseAux s pend → c = ' ' ∨ c ∈ s := by
  intro s
  induction s with
  | nil => intro pend c h; simp [collapseAux] at h
  | cons a as ih =>
    intro pend c h
    rw [collapseAux] at h
    by_cases hws : a.isWhitespace = true
    · rw [if_pos hws] at h
      rcases ih true c h with h2 | h2
      · exact Or.inl h2
      · exact Or.inr (List.mem_cons_of_mem a h2)
    · rw [if_neg hws] at h
      by_cases hp : pend = true
      · rw [if_pos hp] at h
        rcases List.mem_cons.1 h with h2 | h2
        · exact Or.inl h2
        · rcases List.mem_cons.1 h2 with h3 | h3
          · exact Or.inr (h3 ▸ List.mem_cons_self a as)
          · rcases ih false c h3 with h4 | h4
            · exact Or.inl h4
            · exact Or.inr (List.mem_cons_of_mem a h4)
      · rw [if_neg hp] at h
        rcases List.mem_cons.1 h with h2 | h2
        · exact Or.inr (h2 ▸ List.mem_cons_self a as)
        · rcases ih false c h2 with h3 | h3
          · exact Or.inl h3
          · exact Or.inr (List.mem_cons_of_mem a h3)

lemma mem_stripList (s : List Char) (c : Char) (h : c ∈ stripList s) : c ∈ s := by
  unfold stripList at h
  rw [List.mem_reverse] at h
  have h2 := List.Sublist.mem h (List.dropWhile_sublist _)
  rw [List.mem_reverse] at h2
  exact List.Sublist.mem h2 (List.dropWhile_sublist _)

lemma isLowerA_pyUpper (c : Char) : isLowerA (pyUpper c) = false := by
  unfold pyUpper
  by_cases h : isLowerA c = true
  · rw [if_pos h]
    unfold isLowerA at h ⊢
    simp only [Bool.and_eq_true, decide_eq_true_eq] at h
    have h1 : (Char.ofNat (c.toNat - 32)).toNat = c.toNat - 32 := by
      unfold Char.ofNat
      rw [dif_pos]
      · rfl
      · left; omega
    rw [h1]
    have h2 : ¬ 97 ≤ c.toNat - 32 := by omega
    simp [h2]
  · rw [if_neg h]
    simpa using h

lemma head_dropWhile_not_ws :
    ∀ (s : List Char) (c : Char),
      (s.dropWhile Char.isWhitespace).head? = some c → c.isWhitespace = false := by
  intro s
  induction s with
  | nil => intro c h; simp at h
  | cons a as ih =>
    intro c h
    rw [List.dropWhile_cons] at h
    by_cases hws : a.isWhitespace = true
    · rw [if_pos hws] at h
      exact ih c h
    · rw [if_neg hws] at h
      simp only [List.head?_cons, Option.some.injEq] at h
      rw [← h]
      simpa using hws

lemma normWs_head_not_ws (s : List Char) (c : Char)
    (h : (normWs s).head? = some c) : c.isWhitespace = false := by
  unfold normWs at h
  rcases hdw : s.dropWhile Char.isWhitespace with _ | ⟨a, as⟩
  · rw [hdw] at h
    simp [collapseAux] at h
  · rw [hdw] at h
    have ha : a.isWhitespace = false :=
      head_dropWhile_not_ws s a (by rw [hdw]; rfl)
    rw [collapseAux, if_neg (by simp [ha])] at h
    simp only [Bool.false_eq_true, if_false, List.head?_cons, Option.some.injEq] at h
    rw [← h]
    exact ha

lemma collapseAux_getLast_not_ws :
    ∀ (s : List Char) (pend : Bool) (c : Char),
      (collapseAux s pend).getLast? = some c → c.isWhitespace = false := by
  intro s
  induction s with
  | nil => intro pend c h; simp [collapseAux] at h
  | cons a as ih =>
    intro pend c h
    by_cases hws : a.isWhitespace = true
    · rw [collapseAux, if_pos hws] at h
      exact ih true c h
    · have hane : a.isWhitespace = false := by simpa using hws
      by_cases hp : pend = true
      · rw [collapseAux, if_neg hws, if_pos hp, List.getLast?_cons_cons] at h
        rcases hrec : collapseAux as false with _ | ⟨r, rs⟩
        · rw [hrec] at h
          simp only [List.getLast?_singleton, Option.some.injEq] at h
          rw [← h]; exact hane
        · rw [hrec, List.getLast?_cons_cons] at h
          exact ih false c (by rw [hrec]; exact h)
      · rw [collapseAux, if_neg hws, if_neg hp] at h
        rcases hrec : collapseAux as false with _ | ⟨r, rs⟩
        · rw [hrec] at h
          simp only [List.getLast?_singleton, Option.some.injEq] at h
          rw [← h]; exact hane
        · rw [hrec, List.getLast?_cons_cons] at h
          exact ih false c (by rw [hrec]; exact h)

lemma stripList_eq_self (s : List Char)
    (h1 : ∀ c, s.head? = some c → c.isWhitespace = false)
    (h2 : ∀ c, s.getLast? = some c → c.isWhitespace = false) :
    stripList s = s := by
  unfold stripList
  have e1 : s.dropWhile Char.isWhitespace = s := by
    cases s with
    | nil => rfl
    | cons a as =>
      rw [List.dropWhile_cons, if_neg]
      simp [h1 a rfl]
  rw [e1]
  have e2 : s.reverse.dropWhile Char.isWhitespace = s.reverse := by
    cases hrev : s.reverse with
    | nil => rfl
    | cons b bs =>
      rw [List.dropWhile_cons, if_neg]
      have hb : s.getLast? = some b := by
        rw [← List.head?_reverse, hrev]; rfl
      simp [h2 b hb]
  rw [e2, List.reverse_reverse]

lemma collapseAux_chain :
    ∀ (s : List Char) (pend : Bool),
      (collapseAux s pend).Chain' (fun a b => ¬(a = ' ' ∧ b = ' ')) := by
  intro s
  induction s with
  | nil => intro pend; simp [collapseAux]
  | cons a as ih =>
    intro pend
    by_cases hws : a.isWhitespace = true
    · rw [collapseAux, if_pos hws]
      exact ih true
    · have hane : a ≠ ' ' := by
        intro he
        exact hws (by rw [he]; rfl)
      by_cases hp : pend = true
      · rw [collapseAux, if_neg hws, if_pos hp, List.chain'_cons]
        refine ⟨fun hc => hane hc.2, ?_⟩
        rw [List.chain'_cons']
        exact ⟨fun y _ hc => hane hc.1, ih false⟩
      · rw [collapseAux, if_neg hws, if_neg hp, List.chain'_cons']
        exact ⟨fun y _ hc => hane hc.1, ih false⟩

/-- C8 counterexample: `clean_bank_name` is not idempotent — on
`"NATIONAL BANK ASSOCIATION"` one application yields
`"NATIONAL ASSOCIATION"`, whose second cleaning matches the
`NATIONAL ASSOCIATION` removal pattern and yields the empty string. -/
theorem clean_bank_name_not_idempotent :
    clean_bank_name (some (clean_bank_name (some "NATIONAL BANK ASSOCIATION".toList)))
      ≠ clean_bank_name (some "NATIONAL BANK ASSOCIATION".toList) := by
  intro h
  have h1 : clean_bank_name (some "NATIONAL BANK ASSOCIATION".toList) =
      "NATIONAL ASSOCIATION".toList := by rfl
  rw [h1] at h
  have h2 : clean_bank_name (some "NATIONAL ASSOCIATION".toList) = [] := by rfl
  rw [h2] at h
  exact absurd h (by decide)

set_option maxHeartbeats 1000000 in
/-- C8 (amended): `clean_bank_name` is not idempotent in general (a
multi-word removal pattern can match only after a first pass has collapsed
the whitespace left by an inner removal), but its output is always
normalized: NaN maps to the empty string, the result contains no ASCII
lower-case letter, has no leading or trailing whitespace, and never
contains two adjacent spaces. -/
theorem clean_bank_name_output_normalized :
    (clean_bank_name none = []) ∧
    (∀ (x : Option (List Char)) (c : Char), c ∈ clean_bank_name x →
      isLowerA c = false) ∧
    (∀ (x : Option (List Char)) (c : Char), (clean_bank_name x).head? = some c →
      c.isWhitespace = false) ∧
    (∀ (x : Option (List Char)) (c : Char), (clean_bank_name x).getLast? = some c →
      c.isWhitespace = false) ∧
    (∀ x : Option (List Char),
      (clean_bank_name x).Chain' (fun a b => ¬(a = ' ' ∧ b = ' '))) := by
  have hstrip : ∀ s : List Char, stripList (normWs s) = normWs s := by
    intro s
    refine stripList_eq_self _ ?_ ?_
    · exact fun c h => normWs_head_not_ws s c h
    · exact fun c h => collapseAux_getLast_not_ws _ false c h
  refine ⟨rfl, ?_, ?_, ?_, ?_⟩
  · intro x c h
    cases x with
    | none => simp [clean_bank_name] at h
    | some s =>
      have h2 : c ∈ stripList (normWs (removeTerms.foldl applyTerm
          (s.map pyUpper))) := h
      rw [hstrip, normWs] at h2
      rcases mem_collapseAux _ false c h2 with he | hm
      · rw [he]; rfl
      · have hm2 : c ∈ removeTerms.foldl applyTerm (s.map pyUpper) :=
          List.Sublist.mem hm (List.dropWhile_sublist _)
        rcases mem_foldl_applyTerm removeTerms (s.map pyUpper) c hm2 with he | hm3
        · rw [he]; rfl
        · rcases List.mem_map.1 hm3 with ⟨a, _, hac⟩
          rw [← hac]
          exact isLowerA_pyUpper a
  · intro x c h
    cases x with
    | none => simp [clean_bank_name] at h
    | some s =>
      have h2 : (stripList (normWs (removeTerms.foldl applyTerm
          (s.map pyUpper)))).head? = some c := h
      rw [hstrip] at h2
      exact normWs_head_not_ws _ c h2
  · intro x c h
    cases x with
    | none => simp [clean_bank_name] at h
    | some s =>
      have h2 : (stripList (normWs (removeTerms.foldl applyTerm
          (s.map pyUpper)))).getLast? = some c := h
      rw [hstrip, normWs] at h2
      exact collapseAux_getLast_not_ws _ false c h2
  · intro x
    cases x with
    | none => simp [clean_bank_name]
    | some s =>
      have e1 : clean_bank_name (some s) = stripList (normWs (removeTerms.foldl
          applyTerm (s.map pyUpper))) := rfl
      have e2 : clean_bank_name (some s) = collapseAux
          ((removeTerms.foldl applyTerm (s.map pyUpper)).dropWhile
            Char.isWhitespace) false := by
        rw [e1, hstrip, normWs]
      rw [e2]
      exact collapseAux_chain _ false

/-- Witness for the amended C8 at a concrete input. -/
theorem clean_bank_name_output_normalized_witness :
    isLowerA 'F' = false ∧
    (clean_bank_name (some "First Bank".toList)).Chain'
      (fun a b => ¬(a = ' ' ∧ b = ' ')) :=
  ⟨clean_bank_name_output_normalized.2.1 (some "First Bank".toList) 'F' (by decide),
   clean_bank_name_output_normalized.2.2.2.2 (some "First Bank".toList)⟩

/-! ### C10: the Edgar boolean flags after merging -/

lemma mem_leftJoin {β : Type} (right : List β) (km : FinalRow → β → Bool)
    (attach : FinalRow → Option β → FinalRow) :
    ∀ (rows : List FinalRow) (r : FinalRow), r ∈ leftJoin right km attach rows →
      ∃ r0 ∈ rows, ∃ o, r = attach r0 o := by
  intro rows
  induction rows with
  | nil => intro r h; simp [leftJoin] at h
  | cons r1 rs ih =>
    intro r h
    rw [leftJoin] at h
    rcases List.mem_append.1 h with h2 | h2
    · rcases hf : right.filter (km r1) with _ | ⟨m, ms⟩
      · rw [hf] at h2
        simp at h2
        exact ⟨r1, List.mem_cons_self r1 rs, none, h2⟩
      · rw [hf] at h2
        simp at h2
        rcases h2 with h2 | ⟨x, _, hxr⟩
        · exact ⟨r1, List.mem_cons_self r1 rs, some m, h2⟩
        · exact ⟨r1, List.mem_cons_self r1 rs, some x, hxr.symm⟩
    · rcases ih r h2 with ⟨r0, hr0, o, ho⟩
      exact ⟨r0, List.mem_cons_of_mem r1 hr0, o, ho⟩

lemma pctAux_map_fst {α K : Type} [DecidableEq K] (key : α → K) (val : α → ℚ) :
    ∀ (l seen : List α), (pctAux key val seen l).map Prod.fst = l := by
  intro l
  induction l with
  | nil => intro seen; rfl
  | cons r rest ih =>
    intro seen
    rw [pctAux, List.map_cons, ih]

lemma pctAuxFF_map_fst {α K : Type} [DecidableEq K] (key : α → K)
    (val : α → Option ℚ) :
    ∀ (l seen : List α), (pctAuxFF key val seen l).map Prod.fst = l := by
  intro l
  induction l with
  | nil => intro seen; rfl
  | cons r rest ih =>
    intro seen
    rw [pctAuxFF, List.map_cons, ih]

lemma mem_withPctChangeFF_fst {α K : Type} [DecidableEq K] (key : α → K)
    (val : α → Option ℚ) (l : List α) (p : α × Option ℚ)
    (h : p ∈ withPctChangeFF key val l) : p.1 ∈ l := by
  have h2 : p.1 ∈ (pctAuxFF key val [] l).map Prod.fst := List.mem_map_of_mem _ h
  rw [pctAuxFF_map_fst] at h2
  exact h2

lemma mem_sortValues {α β γ : Type} [LinearOrder β] [LinearOrder γ]
    (k : α → β) (y : α → γ) (l : List α) (r : α)
    (h : r ∈ sortValues k y l) : r ∈ l :=
  (List.perm_insertionSort (lexLe k y) l).mem_iff.1 h

/-- After the Edgar annual merge, the flag columns are filled from the
matched aggregate, with `False` where no aggregate matched. -/
lemma mergeAnnualStep_flags (df : List FinalRow) (e : List EdgarAnnualAgg) :
    ∀ r ∈ mergeAnnualStep df (some e),
      r.has10K = some ((r.edgarA.map (fun a => a.has10K)).getD false) ∧
      r.hasDEF14A = some ((r.edgarA.map (fun a => a.hasDEF14A)).getD false) := by
  intro r h
  rw [mergeAnnualStep] at h
  rcases List.mem_map.1 h with ⟨r1, h1, hr⟩
  rcases mem_leftJoin _ _ _ df r1 h1 with ⟨r0, _, o, ho⟩
  subst ho
  rw [← hr]
  cases o with
  | none => simp [fillAnnualFlags, setEdgarA]
  | some a => simp [fillAnnualFlags, setEdgarA]

/-- After the Edgar quarterly merge, `Has_10Q` is filled from the matched
aggregate, with `False` where no aggregate matched. -/
lemma mergeQuarterlyStep_has10Q (df : List FinalRow) (q : List EdgarQuarterlyAgg) :
    ∀ r ∈ mergeQuarterlyStep df (some q),
      r.has10Q = some ((r.edgarQ.map (fun a => a.has10Q)).getD false) := by
  intro r h
  rw [mergeQuarterlyStep] at h
  rcases List.mem_map.1 h with ⟨r1, h1, hr⟩
  rcases mem_leftJoin _ _ _ df r1 h1 with ⟨r0, _, o, ho⟩
  subst ho
  rw [← hr]
  cases o with
  | none => simp [fillQuarterlyFlag, setEdgarQ]
  | some a => simp [fillQuarterlyFlag, setEdgarQ]

/-- The quarterly merge does not touch the annual flag columns. -/
lemma mem_mergeQuarterlyStep (df : List FinalRow)
    (q : Option (List EdgarQuarterlyAgg)) :
    ∀ r ∈ mergeQuarterlyStep df q, ∃ r' ∈ df,
      r.has10K = r'.has10K ∧ r.hasDEF14A = r'.hasDEF14A ∧ r.edgarA = r'.edgarA := by
  intro r h
  cases q with
  | none => exact ⟨r, h, rfl, rfl, rfl⟩
  | some q =>
    rw [mergeQuarterlyStep] at h
    rcases List.mem_map.1 h with ⟨r1, h1, hr⟩
    rcases mem_leftJoin _ _ _ df r1 h1 with ⟨r0, hr0, o, ho⟩
    subst ho
    rw [← hr]
    exact ⟨r0, hr0, by simp [fillQuarterlyFlag, setEdgarQ],
      by simp [fillQuarterlyFlag, setEdgarQ], by simp [fillQuarterlyFlag, setEdgarQ]⟩

/-- The percentile, sort and growth stages do not touch the Edgar columns. -/
lemma mem_deriveSteps (df : List FinalRow) (sodMerged : Bool) :
    ∀ r ∈ assetGrowthStep (branchEffStep df sodMerged), ∃ r' ∈ df,
      r.has10K = r'.has10K ∧ r.hasDEF14A = r'.hasDEF14A ∧ r.has10Q = r'.has10Q ∧
      r.edgarA = r'.edgarA ∧ r.edgarQ = r'.edgarQ := by
  intro r h
  rw [assetGrowthStep] at h
  rcases List.mem_map.1 h with ⟨p, hp, hr⟩
  have hp1 := mem_withPctChangeFF_fst _ _ _ _ hp
  have hp2 := mem_sortValues _ _ _ _ hp1
  have hflags : r.has10K = p.1.has10K ∧ r.hasDEF14A = p.1.hasDEF14A ∧
      r.has10Q = p.1.has10Q ∧ r.edgarA = p.1.edgarA ∧ r.edgarQ = p.1.edgarQ := by
    rw [← hr]
    simp [setAssetGrowth]
  rw [branchEffStep] at hp2
  by_cases hb : sodMerged = true
  · rw [if_pos hb] at hp2
    rcases List.mem_map.1 hp2 with ⟨r0, hr0, hp0⟩
    refine ⟨r0, hr0, ?_⟩
    rw [← hp0] at hflags
    simpa [setBranchEff] using hflags
  · rw [if_neg hb] at hp2
    exact ⟨p.1, hp2, hflags⟩

/-- The `Is_Public_Company` stage: Edgar columns are preserved, and when
the column is written it copies `Has_10K` row for row. -/
lemma mem_isPublicStep (df : List FinalRow) (b : Bool) :
    ∀ r ∈ isPublicStep df b, ∃ r' ∈ df,
      r.has10K = r'.has10K ∧ r.hasDEF14A = r'.hasDEF14A ∧ r.has10Q = r'.has10Q ∧
      r.edgarA = r'.edgarA ∧ r.edgarQ = r'.edgarQ ∧
      (b = true → r.isPublicCompany = r'.has10K) := by
  intro r h
  rw [isPublicStep] at h
  by_cases hb : b = true
  · rw [if_pos hb] at h
    rcases List.mem_map.1 h with ⟨r0, hr0, hr⟩
    rw [← hr]
    exact ⟨r0, hr0, by simp [setIsPublic], by simp [setIsPublic],
      by simp [setIsPublic], by simp [setIsPublic], by simp [setIsPublic],
      fun _ => by simp [setIsPublic]⟩
  · rw [if_neg hb] at h
    exact ⟨r, h, rfl, rfl, rfl, rfl, rfl, fun hc => absurd hc hb⟩

/-- C10: after `merge_all_datasets`, whenever the Edgar annual aggregate
was merged every row has `Has_10K` and `Has_DEF14A` equal to `True` or
`False` (rows with no matching Edgar record get `False`) and
`Is_Public_Company` equals `Has_10K` row for row; whenever the quarterly
aggregate was merged every row has `Has_10Q` equal to `True` or `False`
(again `False` without a match). -/
theorem merged_edgar_flags_total (ffiec : List FfiecRow)
    (sod : Option (List SodAggRow)) :
    (∀ (e : List EdgarAnnualAgg) (qa : Option (List EdgarQuarterlyAgg)),
      ∀ r ∈ merge_all_datasets ffiec sod (some e) qa,
        (∃ b, r.has10K = some b) ∧ (∃ b, r.hasDEF14A = some b) ∧
        (r.edgarA = none → r.has10K = some false ∧ r.hasDEF14A = some false) ∧
        r.isPublicCompany = r.has10K) ∧
    (∀ (ea : Option (List EdgarAnnualAgg)) (q : List EdgarQuarterlyAgg),
      ∀ r ∈ merge_all_datasets ffiec sod ea (some q),
        (∃ b, r.has10Q = some b) ∧ (r.edgarQ = none → r.has10Q = some false)) := by
  constructor
  · intro e qa r h
    rw [merge_all_datasets] at h
    rcases mem_isPublicStep _ _ r h with ⟨r1, h1, e10, eDef, _, eA, _, ePub⟩
    rcases mem_deriveSteps _ _ r1 h1 with ⟨r2, h2, f10, fDef, _, fA, _⟩
    rcases mem_mergeQuarterlyStep _ _ r2 h2 with ⟨r3, h3, g10, gDef, gA⟩
    rcases mergeAnnualStep_flags _ e r3 h3 with ⟨k10, kDef⟩
    have e10' : r.has10K = some ((r.edgarA.map (fun a => a.has10K)).getD false) := by
      rw [e10, eA, f10, fA, g10, gA, k10]
    have eDef' : r.hasDEF14A =
        some ((r.edgarA.map (fun a => a.hasDEF14A)).getD false) := by
      rw [eDef, eA, fDef, fA, gDef, gA, kDef]
    refine ⟨⟨_, e10'⟩, ⟨_, eDef'⟩, ?_, ?_⟩
    · intro hA
      rw [hA] at e10' eDef'
      exact ⟨by simpa using e10', by simpa using eDef'⟩
    · rw [ePub rfl, e10]
  · intro ea q r h
    rw [merge_all_datasets] at h
    rcases mem_isPublicStep _ _ r h with ⟨r1, h1, _, _, e10q, _, eQ, _⟩
    rcases mem_deriveSteps _ _ r1 h1 with ⟨r2, h2, _, _, f10q, _, fQ⟩
    rcases mergeQuarterlyStep_has10Q _ q r2 h2 with k10q
    have e10q' : r.has10Q = some ((r.edgarQ.map (fun a => a.has10Q)).getD false) := by
      rw [e10q, eQ, f10q, fQ, k10q]
    refine ⟨⟨_, e10q'⟩, ?_⟩
    intro hQ
    rw [hQ] at e10q'
    simpa using e10q'

/-! ### C1: the merge preserves the panel structure -/

lemma filter_key_len_le_one {β K : Type} [DecidableEq K] (key : β → K)
    (l : List β) (h : (l.map key).Nodup) (k : K) :
    (l.filter (fun m => decide (key m = k))).length ≤ 1 := by
  induction l with
  | nil => simp
  | cons b bs ih =>
    rw [List.map_cons, List.nodup_cons] at h
    by_cases hb : key b = k
    · rw [List.filter_cons_of_pos (by simp [hb])]
      have hnil : bs.filter (fun m => decide (key m = k)) = [] := by
        rw [List.filter_eq_nil_iff]
        intro x hx
        simp only [decide_eq_true_eq]
        intro hxk
        exact h.1 (by rw [hb, ← hxk]; exact List.mem_map_of_mem key hx)
      rw [hnil]
      simp
    · rw [List.filter_cons_of_neg (by simp [hb])]
      exact ih h.2

/-- A left join whose right side has at most one match per left row keeps
exactly one output row per input row. -/
lemma leftJoin_eq_map_of_unique {β : Type} (right : List β)
    (km : FinalRow → β → Bool) (attach : FinalRow → Option β → FinalRow)
    (h : ∀ r, (right.filter (km r)).length ≤ 1) :
    ∀ rows, leftJoin right km attach rows =
      rows.map (fun r => attach r ((right.filter (km r)).head?)) := by
  intro rows
  induction rows with
  | nil => rfl
  | cons r rs ih =>
    rw [leftJoin, ih]
    rcases hf : right.filter (km r) with _ | ⟨m, ms⟩
    · rw [List.map_cons, hf]
      simp
    · have hms : ms = [] := by
        have hlen := h r
        rw [hf] at hlen
        simp only [List.length_cons] at hlen
        have : ms.length = 0 := by omega
        simpa using this
      subst hms
      rw [List.map_cons, hf]
      simp

lemma mergeSodStep_bases (df : List FinalRow) (s : Option (List SodAggRow))
    (h : ∀ s', s = some s' → ((s'.map (fun m => (m.fdicCert, m.year))).Nodup)) :
    (mergeSodStep df s).map FinalRow.base = df.map FinalRow.base := by
  cases s with
  | none => rfl
  | some s' =>
    rw [mergeSodStep, leftJoin_eq_map_of_unique s' _ setSod
      (fun r => filter_key_len_le_one (fun m => (m.fdicCert, m.year)) s' (h s' rfl)
        (r.base.fdicCert, r.base.year)), List.map_map]
    rfl

lemma mergeAnnualStep_bases (df : List FinalRow) (e : Option (List EdgarAnnualAgg))
    (h : ∀ e', e = some e' → ((e'.map (fun m => (m.rssdId, m.year))).Nodup)) :
    (mergeAnnualStep df e).map FinalRow.base = df.map FinalRow.base := by
  cases e with
  | none => rfl
  | some e' =>
    rw [mergeAnnualStep, List.map_map,
      leftJoin_eq_map_of_unique e' _ setEdgarA
      (fun r => filter_key_len_le_one (fun m => (m.rssdId, m.year)) e' (h e' rfl)
        (r.base.rssdId, r.base.year)), List.map_map]
    rfl

lemma mergeQuarterlyStep_bases (df : List FinalRow)
    (q : Option (List EdgarQuarterlyAgg))
    (h : ∀ q', q = some q' → ((q'.map (fun m => (m.rssdId, m.year))).Nodup)) :
    (mergeQuarterlyStep df q).map FinalRow.base = df.map FinalRow.base := by
  cases q with
  | none => rfl
  | some q' =>
    rw [mergeQuarterlyStep, List.map_map,
      leftJoin_eq_map_of_unique q' _ setEdgarQ
      (fun r => filter_key_len_le_one (fun m => (m.rssdId, m.year)) q' (h q' rfl)
        (r.base.rssdId, r.base.year)), List.map_map]
    rfl

lemma branchEffStep_bases (df : List FinalRow) (b : Bool) :
    (branchEffStep df b).map FinalRow.base = df.map FinalRow.base := by
  rw [branchEffStep]
  by_cases hb : b = true
  · rw [if_pos hb, List.map_map]
    rfl
  · rw [if_neg hb]

lemma isPublicStep_bases (df : List FinalRow) (b : Bool) :
    (isPublicStep df b).map FinalRow.base = df.map FinalRow.base := by
  rw [isPublicStep]
  by_cases hb : b = true
  · rw [if_pos hb, List.map_map]
    rfl
  · rw [if_neg hb]

lemma assetGrowthStep_bases_perm (df : List FinalRow) :
    ((assetGrowthStep df).map FinalRow.base).Perm (df.map FinalRow.base) := by
  rw [assetGrowthStep, List.map_map]
  have e1 : ((withPctChangeFF (fun r => r.base.rssdId) (fun r => r.base.totalAssets)
      (sortValues (fun r => r.base.rssdId) (fun r => r.base.year) df)).map
        (FinalRow.base ∘ fun p => setAssetGrowth p.1 p.2)) =
      (((withPctChangeFF (fun r => r.base.rssdId) (fun r => r.base.totalAssets)
        (sortValues (fun r => r.base.rssdId) (fun r => r.base.year) df)).map
          Prod.fst).map FinalRow.base) := by
    rw [List.map_map]
    rfl
  rw [e1, withPctChangeFF, pctAuxFF_map_fst]
  exact (List.perm_insertionSort _ _).map _

/-- Keys of a groupby are the deduplicated key list, hence unique. -/
lemma groupByKey_keys {α K : Type} [DecidableEq K] (key : α → K) (l : List α) :
    (groupByKey key l).map Prod.fst = (l.map key).dedup := by
  rw [groupByKey, List.map_map]
  have e : (Prod.fst ∘ fun k => (k, l.filter (fun x => decide (key x = k)))) =
      (id : K → K) := rfl
  rw [e, List.map_id]

lemma load_and_aggregate_sod_eq (files : List (Option (List SodRecord))) :
    load_and_aggregate_sod files =
      if files.isEmpty then none
      else if (files.filterMap id).isEmpty then none
      else some ((withPctChange (fun r => r.fdicCert) (fun r => r.totalBranches)
        (sortValues (fun r => r.fdicCert) (fun r => r.year)
          ((groupByKey (fun r => (r.cert.getD 0, r.year.getD 0))
            (((files.filterMap id).foldr (fun f acc => f ++ acc) []).filter
              (fun r => r.cert.isSome && r.year.isSome))).map
            (fun kg => mkSodAgg kg.1 kg.2)))).map
        (fun p => setBranchGrowth p.1 p.2)) := rfl

lemma process_edgar_annual_some (mapping : List MappingRow) (f : EdgarFilingsFile) :
    process_edgar_annual mapping (some f) =
      if mapping.isEmpty then none
      else if f.hasFormCol && f.hasDateCol then
        some (sortValues (fun r => r.rssdId) (fun r => r.year)
          ((groupByKey (fun p => (p.2, (p.1.date.map Prod.fst).getD 0))
            ((innerJoinFilings f.rows mapping).filter
              (fun p => p.1.date.isSome))).map
            (fun kg => mkAnnualAgg kg.1 kg.2)))
      else none := rfl

lemma process_edgar_quarterly_some (mapping : List MappingRow)
    (f : EdgarFilingsFile) :
    process_edgar_quarterly mapping (some f) =
      if mapping.isEmpty then none
      else if f.hasDateCol then
        some (sortValues (fun r => r.rssdId) (fun r => r.year)
          ((groupByKey (fun p => (p.2, (p.1.date.map Prod.fst).getD 0))
            ((innerJoinFilings f.rows mapping).filter
              (fun p => p.1.date.isSome))).map
            (fun kg => mkQuarterlyAgg kg.1 kg.2)))
      else none := rfl

/-- The keys of the SOD aggregate are the deduplicated group keys. -/
lemma sodAgg_keys_eq (l : List SodRecord) :
    (((groupByKey (fun r => (r.cert.getD 0, r.year.getD 0)) l).map
      (fun kg => mkSodAgg kg.1 kg.2)).map (fun r => (r.fdicCert, r.year))) =
    (l.map (fun r => (r.cert.getD 0, r.year.getD 0))).dedup := by
  rw [List.map_map]
  have e3 : ((fun r : SodAggRow => (r.fdicCert, r.year)) ∘
      fun kg => mkSodAgg kg.1 kg.2) =
      (Prod.fst : ((ℚ × ℚ) × List SodRecord) → ℚ × ℚ) := rfl
  rw [e3, groupByKey_keys]

/-- Sorting and attaching the growth column permutes the aggregate rows
without changing their keys. -/
lemma sod_attach_sort_keys_perm (agg : List SodAggRow) :
    (((withPctChange (fun r => r.fdicCert) (fun r => r.totalBranches)
      (sortValues (fun r => r.fdicCert) (fun r => r.year) agg)).map
      (fun p => setBranchGrowth p.1 p.2)).map
        (fun r => (r.fdicCert, r.year))).Perm
    (agg.map (fun r => (r.fdicCert, r.year))) := by
  rw [List.map_map]
  have e1 : ((fun r : SodAggRow => (r.fdicCert, r.year)) ∘
      fun p => setBranchGrowth p.1 p.2) =
      ((fun r : SodAggRow => (r.fdicCert, r.year)) ∘ Prod.fst) := rfl
  rw [e1, ← List.map_map, withPctChange, pctAux_map_fst]
  exact (List.perm_insertionSort _ _).map _

lemma sod_agg_keys_nodup (files : List (Option (List SodRecord)))
    (s : List SodAggRow) (h : load_and_aggregate_sod files = some s) :
    ((s.map (fun r => (r.fdicCert, r.year))).Nodup) := by
  rw [load_and_aggregate_sod_eq] at h
  by_cases h1 : files.isEmpty = true
  · rw [if_pos h1] at h
    exact absurd h (by simp)
  · rw [if_neg h1] at h
    by_cases h2 : (files.filterMap id).isEmpty = true
    · rw [if_pos h2] at h
      exact absurd h (by simp)
    · rw [if_neg h2, Option.some.injEq] at h
      subst h
      refine (sod_attach_sort_keys_perm _).nodup_iff.2 ?_
      rw [sodAgg_keys_eq]
      exact List.nodup_dedup _

lemma edgar_annual_keys_perm (l : List (EdgarFiling × Nat)) :
    ((sortValues (fun r => r.rssdId) (fun r => r.year)
      ((groupByKey (fun p => (p.2, (p.1.date.map Prod.fst).getD 0)) l).map
        (fun kg => mkAnnualAgg kg.1 kg.2))).map
          (fun r => (r.rssdId, r.year))).Perm
    ((l.map (fun p => (p.2, (p.1.date.map Prod.fst).getD 0))).dedup) := by
  have hperm := (List.perm_insertionSort
    (lexLe (fun r : EdgarAnnualAgg => r.rssdId) (fun r => r.year))
    ((groupByKey (fun p => (p.2, (p.1.date.map Prod.fst).getD 0)) l).map
      (fun kg => mkAnnualAgg kg.1 kg.2))).map
    (fun r : EdgarAnnualAgg => (r.rssdId, r.year))
  refine hperm.trans ?_
  rw [List.map_map]
  have e3 : ((fun r : EdgarAnnualAgg => (r.rssdId, r.year)) ∘
      fun kg => mkAnnualAgg kg.1 kg.2) =
      (Prod.fst : ((Nat × ℚ) × List (EdgarFiling × Nat)) → Nat × ℚ) := rfl
  rw [e3, groupByKey_keys]

lemma edgar_annual_keys_nodup (mapping : List MappingRow)
    (file : Option EdgarFilingsFile) (e : List EdgarAnnualAgg)
    (h : process_edgar_annual mapping file = some e) :
    ((e.map (fun r => (r.rssdId, r.year))).Nodup) := by
  cases file with
  | none =>
    exact absurd h (by simp [process_edgar_annual])
  | some f =>
    rw [process_edgar_annual_some] at h
    by_cases h1 : mapping.isEmpty = true
    · rw [if_pos h1] at h
      exact absurd h (by simp)
    · rw [if_neg h1] at h
      by_cases hcols : (f.hasFormCol && f.hasDateCol) = true
      · rw [if_pos hcols, Option.some.injEq] at h
        subst h
        exact (edgar_annual_keys_perm _).nodup_iff.2 (List.nodup_dedup _)
      · rw [if_neg hcols] at h
        exact absurd h (by simp)

lemma edgar_quarterly_keys_perm (l : List (EdgarFiling × Nat)) :
    ((sortValues (fun r => r.rssdId) (fun r => r.year)
      ((groupByKey (fun p => (p.2, (p.1.date.map Prod.fst).getD 0)) l).map
        (fun kg => mkQuarterlyAgg kg.1 kg.2))).map
          (fun r => (r.rssdId, r.year))).Perm
    ((l.map (fun p => (p.2, (p.1.date.map Prod.fst).getD 0))).dedup) := by
  have hperm := (List.perm_insertionSort
    (lexLe (fun r : EdgarQuarterlyAgg => r.rssdId) (fun r => r.year))
    ((groupByKey (fun p => (p.2, (p.1.date.map Prod.fst).getD 0)) l).map
      (fun kg => mkQuarterlyAgg kg.1 kg.2))).map
    (fun r : EdgarQuarterlyAgg => (r.rssdId, r.year))
  refine hperm.trans ?_
  rw [List.map_map]
  have e3 : ((fun r : EdgarQuarterlyAgg => (r.rssdId, r.year)) ∘
      fun kg => mkQuarterlyAgg kg.1 kg.2) =
      (Prod.fst : ((Nat × ℚ) × List (EdgarFiling × Nat)) → Nat × ℚ) := rfl
  rw [e3, groupByKey_keys]

lemma edgar_quarterly_keys_nodup (mapping : List MappingRow)
    (file : Option EdgarFilingsFile) (q : List EdgarQuarterlyAgg)
    (h : process_edgar_quarterly mapping file = some q) :
    ((q.map (fun r => (r.rssdId, r.year))).Nodup) := by
  cases file with
  | none =>
    exact absurd h (by simp [process_edgar_quarterly])
  | some f =>
    rw [process_edgar_quarterly_some] at h
    by_cases h1 : mapping.isEmpty = true
    · rw [if_pos h1] at h
      exact absurd h (by simp)
    · rw [if_neg h1] at h
      by_cases hcols : f.hasDateCol = true
      · rw [if_pos hcols, Option.some.injEq] at h
        subst h
        exact (edgar_quarterly_keys_perm _).nodup_iff.2 (List.nodup_dedup _)
      · rw [if_neg hcols] at h
        exact absurd h (by simp)

/-- The merge keeps exactly the FFIEC rows (as a multiset) whenever every
right-hand table has unique join keys. -/
lemma merge_all_datasets_bases_perm (ffiec : List FfiecRow)
    (sod : Option (List SodAggRow)) (ea : Option (List EdgarAnnualAgg))
    (eqa : Option (List EdgarQuarterlyAgg))
    (hs : ∀ s, sod = some s → ((s.map (fun m => (m.fdicCert, m.year))).Nodup))
    (ha : ∀ e, ea = some e → ((e.map (fun m => (m.rssdId, m.year))).Nodup))
    (hq : ∀ q, eqa = some q → ((q.map (fun m => (m.rssdId, m.year))).Nodup)) :
    ((merge_all_datasets ffiec sod ea eqa).map FinalRow.base).Perm ffiec := by
  rw [merge_all_datasets, isPublicStep_bases]
  have h1 := assetGrowthStep_bases_perm
    (branchEffStep (mergeQuarterlyStep (mergeAnnualStep
      (mergeSodStep (ffiec.map initRow) sod) ea) eqa) sod.isSome)
  rw [branchEffStep_bases, mergeQuarterlyStep_bases _ _ hq,
    mergeAnnualStep_bases _ _ ha, mergeSodStep_bases _ _ hs, List.map_map] at h1
  have h2 : ffiec.map (FinalRow.base ∘ initRow) = ffiec := by
    have : (FinalRow.base ∘ initRow) = id := rfl
    rw [this, List.map_id]
  rw [h2] at h1
  exact h1

/-- C1: merging is by left joins of the FFIEC table against aggregates
keyed by groupbys, whose keys are unique, so the merged dataset has
exactly one row per FFIEC input row (none dropped, none duplicated), and
uniqueness of `(RSSD_ID, Year)` in the FFIEC input carries over to the
final dataset. -/
theorem merge_preserves_ffiec_panel (ffiec : List FfiecRow)
    (files : List (Option (List SodRecord))) (mapping : List MappingRow)
    (af qf : Option EdgarFilingsFile) :
    (((merge_all_datasets ffiec (load_and_aggregate_sod files)
        (process_edgar_annual mapping af)
        (process_edgar_quarterly mapping qf)).map FinalRow.base).Perm ffiec) ∧
    ((merge_all_datasets ffiec (load_and_aggregate_sod files)
        (process_edgar_annual mapping af)
        (process_edgar_quarterly mapping qf)).length = ffiec.length) ∧
    ((ffiec.map (fun f => (f.rssdId, f.year))).Nodup →
      ((merge_all_datasets ffiec (load_and_aggregate_sod files)
          (process_edgar_annual mapping af)
          (process_edgar_quarterly mapping qf)).map
        (fun r => (r.base.rssdId, r.base.year))).Nodup) := by
  have hperm := merge_all_datasets_bases_perm ffiec (load_and_aggregate_sod files)
    (process_edgar_annual mapping af) (process_edgar_quarterly mapping qf)
    (fun s hsome => sod_agg_keys_nodup files s hsome)
    (fun e hsome => edgar_annual_keys_nodup mapping af e hsome)
    (fun q hsome => edgar_quarterly_keys_nodup mapping qf q hsome)
  refine ⟨hperm, ?_, ?_⟩
  · have := hperm.length_eq
    rwa [List.length_map] at this
  · intro hnd
    have hkeys : ((merge_all_datasets ffiec (load_and_aggregate_sod files)
        (process_edgar_annual mapping af)
        (process_edgar_quarterly mapping qf)).map
          (fun r => (r.base.rssdId, r.base.year))).Perm
        (ffiec.map (fun f => (f.rssdId, f.year))) := by
      have h2 := hperm.map (fun f : FfiecRow => (f.rssdId, f.year))
      rwa [List.map_map] at h2
    exact hkeys.nodup_iff.2 hnd

/-- Witness for C1 at a concrete world: one FFIEC row, one SOD file. -/
theorem merge_preserves_ffiec_panel_witness :
    (((merge_all_datasets [⟨1, 3, 2020, some 50⟩]
        (load_and_aggregate_sod [some [⟨some 3, ['1'], some 2020, some 7, some 1,
          none, none⟩]])
        (process_edgar_annual [] none)
        (process_edgar_quarterly [] none)).map FinalRow.base).Perm
      [⟨1, 3, 2020, some 50⟩]) ∧
    ((merge_all_datasets [⟨1, 3, 2020, some 50⟩]
        (load_and_aggregate_sod [some [⟨some 3, ['1'], some 2020, some 7, some 1,
          none, none⟩]])
        (process_edgar_annual [] none)
        (process_edgar_quarterly [] none)).length = 1) ∧
    ((([⟨1, 3, 2020, some 50⟩] : List FfiecRow).map
        (fun f => (f.rssdId, f.year))).Nodup →
      ((merge_all_datasets [⟨1, 3, 2020, some 50⟩]
          (load_and_aggregate_sod [some [⟨some 3, ['1'], some 2020, some 7, some 1,
            none, none⟩]])
          (process_edgar_annual [] none)
          (process_edgar_quarterly [] none)).map
        (fun r => (r.base.rssdId, r.base.year))).Nodup) :=
  merge_preserves_ffiec_panel [⟨1, 3, 2020, some 50⟩]
    [some [⟨some 3, ['1'], some 2020, some 7, some 1, none, none⟩]] [] none none

/-! ### C4: pct_change over consecutive records of each sorted group -/

lemma pctAux_getElem? {α K : Type} [DecidableEq K] (key : α → K) (val : α → ℚ) :
    ∀ (l seen : List α) (i : Nat),
      (pctAux key val seen l)[i]? =
        (l[i]?).map (fun r => (r,
          (((seen ++ l.take i).filter
            (fun p => decide (key p = key r))).getLast?).map
            (fun p => (val r - val p) / val p))) := by
  intro l
  induction l with
  | nil => intro seen i; simp [pctAux]
  | cons r rest ih =>
    intro seen i
    cases i with
    | zero => simp [pctAux]
    | succ n =>
      rw [pctAux, List.getElem?_cons_succ, List.getElem?_cons_succ, ih (seen ++ [r]) n]
      simp only [List.take_succ_cons, List.append_assoc, List.singleton_append]

lemma nodup_getElem?_ne {α : Type} (L : List α) (h : L.Nodup) (i j : Nat)
    (x y : α) (hx : L[i]? = some x) (hy : L[j]? = some y) (hij : i ≠ j) :
    x ≠ y := by
  rcases List.getElem?_eq_some.1 hx with ⟨hi, hxe⟩
  rcases List.getElem?_eq_some.1 hy with ⟨hj, hye⟩
  intro hxy
  apply hij
  have hg : L.get ⟨i, hi⟩ = L.get ⟨j, hj⟩ := by
    rw [List.get_eq_getElem, List.get_eq_getElem, hxe, hye, hxy]
  have h2 := (List.Nodup.get_inj_iff h).1 hg
  exact congrArg Fin.val h2

/-- In a frame sorted lexicographically by `(k, y)`, the prior rows of
row `i+1` with the same primary key `k` are empty when the key changes at
`i`, and otherwise end exactly at row `i`; and `y` is monotone within a
key group. -/
lemma sorted_prior_filter {α β γ : Type} [LinearOrder β] [LinearOrder γ]
    (k : α → β) (y : α → γ) (l : List α) (hs : l.Pairwise (lexLe k y))
    (i : Nat) (a b : α) (ha : l[i]? = some a) (hb : l[i+1]? = some b) :
    (k a = k b →
      ((l.take (i+1)).filter (fun p => decide (k p = k b))).getLast? = some a) ∧
    (k a ≠ k b →
      ((l.take (i+1)).filter (fun p => decide (k p = k b))) = []) ∧
    (k a = k b → y a ≤ y b) := by
  have hi1 : i + 1 < l.length := (List.getElem?_eq_some.1 hb).1
  have hi : i < l.length := by omega
  have hag : l[i] = a := (List.getElem?_eq_some.1 ha).2
  have hbg : l[i+1] = b := (List.getElem?_eq_some.1 hb).2
  have hadj : lexLe k y a b := by
    have h2 := List.pairwise_iff_get.1 hs ⟨i, hi⟩ ⟨i+1, hi1⟩ (by simp)
    rw [List.get_eq_getElem, List.get_eq_getElem, hag, hbg] at h2
    exact h2
  have hka : k a ≤ k b := by
    rcases hadj with h | ⟨h, _⟩
    · exact le_of_lt h
    · exact le_of_eq h
  have hmono : ∀ j, j ≤ i → ∀ x, l[j]? = some x → k x ≤ k a := by
    intro j hj x hx
    rcases Nat.lt_or_ge j i with hlt | hge
    · have hjl : j < l.length := by omega
      have hxg : l[j] = x := (List.getElem?_eq_some.1 hx).2
      have h2 := List.pairwise_iff_get.1 hs ⟨j, hjl⟩ ⟨i, hi⟩ (by simpa using hlt)
      rw [List.get_eq_getElem, List.get_eq_getElem, hxg, hag] at h2
      rcases h2 with h | ⟨h, _⟩
      · exact le_of_lt h
      · exact le_of_eq h
    · have hj' : j = i := by omega
      subst hj'
      rw [ha, Option.some.injEq] at hx
      exact le_of_eq (by rw [← hx])
  refine ⟨?_, ?_, ?_⟩
  · intro heq
    rw [List.take_succ, ha, List.filter_append]
    have hfa : List.filter (fun p => decide (k p = k b)) (some a).toList = [a] := by
      simp [heq]
    rw [hfa]
    exact List.getLast?_concat _
  · intro hne
    rw [List.filter_eq_nil_iff]
    intro x hx
    simp only [decide_eq_true_eq]
    intro hxb
    rcases List.mem_iff_getElem.1 hx with ⟨j, hjlen, hje⟩
    have hjlt : j < i + 1 := by
      have h3 := hjlen
      rw [List.length_take] at h3
      omega
    have hjl : j < l.length := by
      have h3 := hjlen
      rw [List.length_take] at h3
      omega
    have hlx : l[j]? = some x := by
      rw [List.getElem?_eq_getElem hjl]
      rw [Option.some.injEq]
      rw [← hje]
      exact (List.getElem_take l).symm
    have hle : k x ≤ k a := hmono j (by omega) x hlx
    rw [hxb] at hle
    exact hne (le_antisymm hka hle)
  · intro heq
    rcases hadj with h | ⟨_, h⟩
    · exact absurd heq (ne_of_lt h)
    · exact h

/-- Specification of pandas `groupby(k)[v].pct_change()` on a frame sorted
by `(k, y)`: the first row of each `k` group gets NaN, every later row
gets the growth against the immediately preceding row of its group. -/
lemma withPctChange_spec_adjacent {α β γ : Type} [LinearOrder β] [LinearOrder γ]
    (k : α → β) (y : α → γ) (v : α → ℚ) (l : List α)
    (hs : l.Pairwise (lexLe k y)) :
    (∀ p : α × Option ℚ, (withPctChange k v l)[0]? = some p → p.2 = none) ∧
    (∀ (i : Nat) (p q : α × Option ℚ), (withPctChange k v l)[i]? = some p →
      (withPctChange k v l)[i+1]? = some q →
      l[i]? = some p.1 ∧ l[i+1]? = some q.1 ∧
      (k p.1 = k q.1 → y p.1 ≤ y q.1 ∧
        q.2 = some ((v q.1 - v p.1) / v p.1)) ∧
      (k p.1 ≠ k q.1 → q.2 = none)) := by
  constructor
  · intro p hp
    rw [withPctChange, pctAux_getElem?] at hp
    rcases Option.map_eq_some'.1 hp with ⟨r, _, hr⟩
    rw [← hr]
    simp
  · intro i p q hp hq
    rw [withPctChange, pctAux_getElem?] at hp hq
    rcases Option.map_eq_some'.1 hp with ⟨a, hla, hpa⟩
    rcases Option.map_eq_some'.1 hq with ⟨b, hlb, hqb⟩
    have hp1 : p.1 = a := by rw [← hpa]
    have hq1 : q.1 = b := by rw [← hqb]
    have hq2 : q.2 = (((l.take (i+1)).filter
        (fun p => decide (k p = k b))).getLast?).map
        (fun p => (v b - v p) / v p) := by
      rw [← hqb]
      simp
    rcases sorted_prior_filter k y l hs i a b hla hlb with ⟨hsame, hdiff, hy⟩
    refine ⟨by rw [hp1]; exact hla, by rw [hq1]; exact hlb, ?_, ?_⟩
    · intro hk
      rw [hp1, hq1] at hk ⊢
      refine ⟨hy hk, ?_⟩
      rw [hq2, hsame hk]
      rfl
    · intro hk
      rw [hp1, hq1] at hk
      rw [hq2, hdiff hk]
      rfl

/-- Branch growth on the sorted, uniquely-keyed SOD aggregate. -/
lemma sod_attach_growth_spec (sorted : List SodAggRow)
    (hs : sorted.Pairwise (lexLe (fun r => r.fdicCert) (fun r => r.year)))
    (hnd : (sorted.map (fun r => (r.fdicCert, r.year))).Nodup) :
    (∀ a, ((withPctChange (fun r => r.fdicCert) (fun r => r.totalBranches)
        sorted).map (fun p => setBranchGrowth p.1 p.2))[0]? = some a →
      a.branchGrowth = none) ∧
    (∀ (i : Nat) (a b : SodAggRow),
      ((withPctChange (fun r => r.fdicCert) (fun r => r.totalBranches)
        sorted).map (fun p => setBranchGrowth p.1 p.2))[i]? = some a →
      ((withPctChange (fun r => r.fdicCert) (fun r => r.totalBranches)
        sorted).map (fun p => setBranchGrowth p.1 p.2))[i+1]? = some b →
      (a.fdicCert = b.fdicCert →
        a.year < b.year ∧
        b.branchGrowth = some ((b.totalBranches - a.totalBranches) /
          a.totalBranches)) ∧
      (a.fdicCert ≠ b.fdicCert → b.branchGrowth = none)) := by
  have hadj := withPctChange_spec_adjacent (fun r => r.fdicCert)
    (fun r => r.year) (fun r => r.totalBranches) sorted hs
  constructor
  · intro a ha
    rw [List.getElem?_map] at ha
    rcases Option.map_eq_some'.1 ha with ⟨p, hp, hpa⟩
    have h0 := hadj.1 p hp
    rw [← hpa]
    simpa [setBranchGrowth] using h0
  · intro i a b ha hb
    rw [List.getElem?_map] at ha hb
    rcases Option.map_eq_some'.1 ha with ⟨p, hp, hpa⟩
    rcases Option.map_eq_some'.1 hb with ⟨q, hq, hqb⟩
    rcases hadj.2 i p q hp hq with ⟨hlp, hlq, hsame, hdiff⟩
    have ea1 : a.fdicCert = p.1.fdicCert := by rw [← hpa]; rfl
    have ea2 : a.year = p.1.year := by rw [← hpa]; rfl
    have ea3 : a.totalBranches = p.1.totalBranches := by rw [← hpa]; rfl
    have eb1 : b.fdicCert = q.1.fdicCert := by rw [← hqb]; rfl
    have eb2 : b.year = q.1.year := by rw [← hqb]; rfl
    have eb3 : b.totalBranches = q.1.totalBranches := by rw [← hqb]; rfl
    have eb4 : b.branchGrowth = q.2 := by rw [← hqb]; rfl
    constructor
    · intro hk
      have hk2 : p.1.fdicCert = q.1.fdicCert := by
        rw [← ea1, ← eb1]; exact hk
      rcases hsame hk2 with ⟨hyle, hgr⟩
      have hne : (p.1.fdicCert, p.1.year) ≠ (q.1.fdicCert, q.1.year) := by
        refine nodup_getElem?_ne _ hnd i (i+1) _ _ ?_ ?_ (by omega)
        · rw [List.getElem?_map, hlp]; rfl
        · rw [List.getElem?_map, hlq]; rfl
      have hyne : p.1.year ≠ q.1.year := by
        intro hy
        exact hne (by rw [hk2, hy])
      refine ⟨?_, ?_⟩
      · rw [ea2, eb2]
        exact lt_of_le_of_ne hyle hyne
      · rw [eb4, hgr, ea3, eb3]
    · intro hk
      have hk2 : p.1.fdicCert ≠ q.1.fdicCert := by
        rw [← ea1, ← eb1]; exact hk
      rw [eb4]
      exact hdiff hk2

lemma sod_branch_growth_spec :
    ∀ (files : List (Option (List SodRecord))) (s : List SodAggRow),
      load_and_aggregate_sod files = some s →
      (∀ a, s[0]? = some a → a.branchGrowth = none) ∧
      (∀ (i : Nat) (a b : SodAggRow), s[i]? = some a → s[i+1]? = some b →
        (a.fdicCert = b.fdicCert →
          a.year < b.year ∧
          b.branchGrowth = some ((b.totalBranches - a.totalBranches) /
            a.totalBranches)) ∧
        (a.fdicCert ≠ b.fdicCert → b.branchGrowth = none)) := by
  intro files s h
  rw [load_and_aggregate_sod_eq] at h
  by_cases h1 : files.isEmpty = true
  · rw [if_pos h1] at h
    exact absurd h (by simp)
  · rw [if_neg h1] at h
    by_cases h2 : (files.filterMap id).isEmpty = true
    · rw [if_pos h2] at h
      exact absurd h (by simp)
    · rw [if_neg h2, Option.some.injEq] at h
      subst h
      refine sod_attach_growth_spec _ ?_ ?_
      · exact List.sorted_insertionSort _ _
      · refine ((List.perm_insertionSort _ _).map
          (fun r : SodAggRow => (r.fdicCert, r.year))).nodup_iff.2 ?_
        rw [sodAgg_keys_eq]
        exact List.nodup_dedup _

lemma exists_append_of_getLast? {α : Type} (L : List α) (x : α)
    (h : L.getLast? = some x) : ∃ L2, L = L2 ++ [x] := by
  rw [← List.head?_reverse] at h
  cases hrev : L.reverse with
  | nil => rw [hrev] at h; exact absurd h (by simp)
  | cons c cs =>
    rw [hrev] at h
    simp only [List.head?_cons, Option.some.injEq] at h
    refine ⟨cs.reverse, ?_⟩
    have e : L = L.reverse.reverse := (List.reverse_reverse L).symm
    rw [e, hrev, List.reverse_cons, h]

/-- When the last row of a prefix carries a non-null value, the forward
fill ends exactly at that value. -/
lemma lastFilled_of_getLast? {α : Type} (v : α → Option ℚ) (L : List α)
    (x : α) (va : ℚ) (hL : L.getLast? = some x) (hv : v x = some va) :
    lastFilled (L.map v) = some va := by
  rcases exists_append_of_getLast? L x hL with ⟨L2, rfl⟩
  rw [lastFilled, List.map_append, List.filterMap_append]
  have e : List.filterMap id (List.map v [x]) = [va] := by
    simp [hv]
  rw [e, List.getLast?_concat]

lemma pctAuxFF_getElem? {α K : Type} [DecidableEq K] (key : α → K)
    (val : α → Option ℚ) :
    ∀ (l seen : List α) (i : Nat),
      (pctAuxFF key val seen l)[i]? =
        (l[i]?).map (fun r => (r,
          (lastFilled (((seen ++ l.take i).filter
            (fun p => decide (key p = key r))).map val)).map
            (fun bv => ((val r).getD bv - bv) / bv))) := by
  intro l
  induction l with
  | nil => intro seen i; simp [pctAuxFF]
  | cons r rest ih =>
    intro seen i
    cases i with
    | zero => simp [pctAuxFF]
    | succ n =>
      rw [pctAuxFF, List.getElem?_cons_succ, List.getElem?_cons_succ, ih (seen ++ [r]) n]
      simp only [List.take_succ_cons, List.append_assoc, List.singleton_append]

/-- Specification of pandas `groupby(k)[v].pct_change()` with the default
forward fill on a frame sorted by `(k, y)`: the first row of each `k`
group gets NaN; every later row gets the change of its forward-filled
value against the last earlier non-null value of its group (NaN while
there is none); and when the value of the immediately preceding group row
is present, the change is taken against exactly that value. -/
lemma withPctChangeFF_spec_adjacent {α β γ : Type} [LinearOrder β] [LinearOrder γ]
    (k : α → β) (y : α → γ) (v : α → Option ℚ) (l : List α)
    (hs : l.Pairwise (lexLe k y)) :
    (∀ p : α × Option ℚ, (withPctChangeFF k v l)[0]? = some p → p.2 = none) ∧
    (∀ (i : Nat) (p q : α × Option ℚ), (withPctChangeFF k v l)[i]? = some p →
      (withPctChangeFF k v l)[i+1]? = some q →
      l[i]? = some p.1 ∧ l[i+1]? = some q.1 ∧
      (k p.1 = k q.1 →
        y p.1 ≤ y q.1 ∧
        q.2 = (lastFilled (((l.take (i+1)).filter
            (fun x => decide (k x = k q.1))).map v)).map
          (fun bv => ((v q.1).getD bv - bv) / bv) ∧
        (∀ va, v p.1 = some va →
          q.2 = some (((v q.1).getD va - va) / va))) ∧
      (k p.1 ≠ k q.1 → q.2 = none)) := by
  constructor
  · intro p hp
    rw [withPctChangeFF, pctAuxFF_getElem?] at hp
    rcases Option.map_eq_some'.1 hp with ⟨r, _, hr⟩
    rw [← hr]
    simp [lastFilled]
  · intro i p q hp hq
    rw [withPctChangeFF, pctAuxFF_getElem?] at hp hq
    rcases Option.map_eq_some'.1 hp with ⟨a, hla, hpa⟩
    rcases Option.map_eq_some'.1 hq with ⟨b, hlb, hqb⟩
    have hp1 : p.1 = a := by rw [← hpa]
    have hq1 : q.1 = b := by rw [← hqb]
    have hq2 : q.2 = (lastFilled (((l.take (i+1)).filter
        (fun x => decide (k x = k b))).map v)).map
        (fun bv => ((v b).getD bv - bv) / bv) := by
      rw [← hqb]
      simp
    rcases sorted_prior_filter k y l hs i a b hla hlb with ⟨hsame, hdiff, hy⟩
    refine ⟨by rw [hp1]; exact hla, by rw [hq1]; exact hlb, ?_, ?_⟩
    · intro hk
      rw [hp1, hq1] at hk ⊢
      refine ⟨hy hk, hq2, ?_⟩
      intro va hva
      have hlf : lastFilled (((l.take (i+1)).filter
          (fun x => decide (k x = k b))).map v) = some va :=
        lastFilled_of_getLast? v _ a va (hsame hk) hva
      rw [hq2, hlf]
      rfl
    · intro hk
      rw [hp1, hq1] at hk
      rw [hq2, hdiff hk]
      rfl

/-- Filtering on `RSSD_ID` and projecting `Total_Assets` only depend on
the `base` image of a frame. -/
lemma filter_base_map_totalAssets (l : List FinalRow) (K : Nat) :
    ((l.filter (fun x => decide (x.base.rssdId = K))).map
      (fun x => x.base.totalAssets)) =
    (((l.map FinalRow.base).filter (fun b => decide (b.rssdId = K))).map
      (fun b => b.totalAssets)) := by
  rw [List.filter_map, List.map_map]
  rfl

/-- Asset growth on the sorted merged frame: pandas forward-fills the
nullable `Total_Assets` within each `RSSD_ID` group before computing the
change. -/
lemma assetGrowthStep_growth_spec (df : List FinalRow) :
    (∀ a, (assetGrowthStep df)[0]? = some a → a.assetGrowth = none) ∧
    (∀ (i : Nat) (a b : FinalRow), (assetGrowthStep df)[i]? = some a →
      (assetGrowthStep df)[i+1]? = some b →
      (a.base.rssdId = b.base.rssdId →
        a.base.year ≤ b.base.year ∧
        b.assetGrowth = (lastFilled ((((assetGrowthStep df).take (i+1)).filter
            (fun x => decide (x.base.rssdId = b.base.rssdId))).map
            (fun x => x.base.totalAssets))).map
          (fun bv => ((b.base.totalAssets).getD bv - bv) / bv) ∧
        (∀ va, a.base.totalAssets = some va →
          b.assetGrowth = some (((b.base.totalAssets).getD va - va) / va))) ∧
      (a.base.rssdId ≠ b.base.rssdId → b.assetGrowth = none)) := by
  have hadj := withPctChangeFF_spec_adjacent (fun r : FinalRow => r.base.rssdId)
    (fun r => r.base.year) (fun r => r.base.totalAssets)
    (sortValues (fun r : FinalRow => r.base.rssdId) (fun r => r.base.year) df)
    (List.sorted_insertionSort _ _)
  have hbase : (assetGrowthStep df).map FinalRow.base =
      (sortValues (fun r : FinalRow => r.base.rssdId) (fun r => r.base.year)
        df).map FinalRow.base := by
    rw [assetGrowthStep, List.map_map]
    have e1 : (FinalRow.base ∘ fun p : FinalRow × Option ℚ =>
        setAssetGrowth p.1 p.2) = (FinalRow.base ∘ Prod.fst) := rfl
    rw [e1, ← List.map_map, withPctChangeFF, pctAuxFF_map_fst]
  have htransfer : ∀ (j : Nat) (K : Nat),
      (((assetGrowthStep df).take j).filter
        (fun x => decide (x.base.rssdId = K))).map
        (fun x => x.base.totalAssets) =
      (((sortValues (fun r : FinalRow => r.base.rssdId) (fun r => r.base.year)
          df).take j).filter (fun x => decide (x.base.rssdId = K))).map
        (fun x => x.base.totalAssets) := by
    intro j K
    rw [filter_base_map_totalAssets, filter_base_map_totalAssets,
      List.map_take, List.map_take, hbase]
  constructor
  · intro a ha
    rw [assetGrowthStep, List.getElem?_map] at ha
    rcases Option.map_eq_some'.1 ha with ⟨p, hp, hpa⟩
    have h0 := hadj.1 p hp
    rw [← hpa]
    simpa [setAssetGrowth] using h0
  · intro i a b ha hb
    rw [assetGrowthStep, List.getElem?_map] at ha hb
    rcases Option.map_eq_some'.1 ha with ⟨p, hp, hpa⟩
    rcases Option.map_eq_some'.1 hb with ⟨q, hq, hqb⟩
    rcases hadj.2 i p q hp hq with ⟨_, _, hsame, hdiff⟩
    have ea1 : a.base = p.1.base := by rw [← hpa]; rfl
    have eb1 : b.base = q.1.base := by rw [← hqb]; rfl
    have eb4 : b.assetGrowth = q.2 := by rw [← hqb]; rfl
    constructor
    · intro hk
      have hk2 : p.1.base.rssdId = q.1.base.rssdId := by
        rw [← ea1, ← eb1]; exact hk
      rcases hsame hk2 with ⟨hyle, hgr, hva⟩
      refine ⟨?_, ?_, ?_⟩
      · rw [ea1, eb1]
        exact hyle
      · rw [eb4, hgr, eb1, htransfer (i + 1) q.1.base.rssdId]
      · intro va hva2
        have hva3 : p.1.base.totalAssets = some va := by
          rw [← ea1]
          exact hva2
        rw [eb4, hva va hva3, eb1]
    · intro hk
      have hk2 : p.1.base.rssdId ≠ q.1.base.rssdId := by
        rw [← ea1, ← eb1]; exact hk
      rw [eb4]
      exact hdiff hk2

lemma final_growth_spec (df : List FinalRow) (flag : Bool) :
    (∀ a, (isPublicStep (assetGrowthStep df) flag)[0]? = some a →
      a.assetGrowth = none) ∧
    (∀ (i : Nat) (a b : FinalRow),
      (isPublicStep (assetGrowthStep df) flag)[i]? = some a →
      (isPublicStep (assetGrowthStep df) flag)[i+1]? = some b →
      (a.base.rssdId = b.base.rssdId →
        a.base.year ≤ b.base.year ∧
        b.assetGrowth = (lastFilled ((((isPublicStep (assetGrowthStep df)
            flag).take (i+1)).filter
            (fun x => decide (x.base.rssdId = b.base.rssdId))).map
            (fun x => x.base.totalAssets))).map
          (fun bv => ((b.base.totalAssets).getD bv - bv) / bv) ∧
        (∀ va, a.base.totalAssets = some va →
          b.assetGrowth = some (((b.base.totalAssets).getD va - va) / va))) ∧
      (a.base.rssdId ≠ b.base.rssdId → b.assetGrowth = none)) := by
  have htransfer : ∀ (j : Nat) (K : Nat),
      (((isPublicStep (assetGrowthStep df) flag).take j).filter
        (fun x => decide (x.base.rssdId = K))).map
        (fun x => x.base.totalAssets) =
      (((assetGrowthStep df).take j).filter
        (fun x => decide (x.base.rssdId = K))).map
        (fun x => x.base.totalAssets) := by
    intro j K
    rw [filter_base_map_totalAssets, filter_base_map_totalAssets,
      List.map_take, List.map_take, isPublicStep_bases]
  by_cases hb : flag = true
  · constructor
    · intro a ha
      rw [isPublicStep, if_pos hb, List.getElem?_map] at ha
      rcases Option.map_eq_some'.1 ha with ⟨c, hc, hca⟩
      have h0 := (assetGrowthStep_growth_spec df).1 c hc
      rw [← hca]
      simpa [setIsPublic] using h0
    · intro i a b ha hb2
      rw [isPublicStep, if_pos hb, List.getElem?_map] at ha hb2
      rcases Option.map_eq_some'.1 ha with ⟨c, hc, hca⟩
      rcases Option.map_eq_some'.1 hb2 with ⟨d, hd, hdb⟩
      have ea1 : a.base = c.base := by rw [← hca]; rfl
      have eb1 : b.base = d.base := by rw [← hdb]; rfl
      have eb2 : b.assetGrowth = d.assetGrowth := by rw [← hdb]; rfl
      have hspec := (assetGrowthStep_growth_spec df).2 i c d hc hd
      constructor
      · intro hk
        rcases hspec.1 (by rw [← ea1, ← eb1]; exact hk) with ⟨hy, hg, hva⟩
        refine ⟨?_, ?_, ?_⟩
        · rw [ea1, eb1]
          exact hy
        · rw [eb2, hg, eb1, htransfer (i + 1) d.base.rssdId]
        · intro va hva2
          rw [eb2, eb1]
          exact hva va (by rw [← ea1]; exact hva2)
      · intro hk
        rw [eb2]
        exact hspec.2 (by rw [← ea1, ← eb1]; exact hk)
  · have hid : isPublicStep (assetGrowthStep df) flag = assetGrowthStep df := by
      rw [isPublicStep, if_neg hb]
    rw [hid]
    exact assetGrowthStep_growth_spec df

lemma merged_asset_growth_spec :
    ∀ (ffiec : List FfiecRow) (sod : Option (List SodAggRow))
      (ea : Option (List EdgarAnnualAgg)) (eqa : Option (List EdgarQuarterlyAgg)),
      (∀ a, (merge_all_datasets ffiec sod ea eqa)[0]? = some a →
        a.assetGrowth = none) ∧
      (∀ (i : Nat) (a b : FinalRow),
        (merge_all_datasets ffiec sod ea eqa)[i]? = some a →
        (merge_all_datasets ffiec sod ea eqa)[i+1]? = some b →
        (a.base.rssdId = b.base.rssdId →
          a.base.year ≤ b.base.year ∧
          b.assetGrowth = (lastFilled ((((merge_all_datasets ffiec sod ea
              eqa).take (i+1)).filter
              (fun x => decide (x.base.rssdId = b.base.rssdId))).map
              (fun x => x.base.totalAssets))).map
            (fun bv => ((b.base.totalAssets).getD bv - bv) / bv) ∧
          (∀ va, a.base.totalAssets = some va →
            b.assetGrowth = some (((b.base.totalAssets).getD va - va) / va))) ∧
        (a.base.rssdId ≠ b.base.rssdId → b.assetGrowth = none)) := by
  intro ffiec sod ea eqa
  rw [merge_all_datasets]
  exact final_growth_spec _ _

unseal Rat.add Rat.mul Rat.inv Rat.sub in
/-- C4 counterexample: with a missing `Total_Assets` in the middle of a
bank's history, `Asset_Growth_YoY` is not the quotient against the
previous record present in the data.  The 2021 record carries no
`Total_Assets`, yet its growth is defined (`0`); and the 2022 record's
growth is `(120 - 100) / 100` — computed against the last non-missing
value `100` of the 2020 record — although its immediately preceding
record (2021) has no `Total_Assets` to form the claimed quotient from. -/
theorem asset_growth_not_quotient_of_previous_record :
    (merge_all_datasets [⟨1, 3, 2020, some 100⟩, ⟨1, 3, 2021, none⟩,
        ⟨1, 3, 2022, some 120⟩] none none none) =
      [⟨⟨1, 3, 2020, some 100⟩, none, none, none, none, none, none, none,
          none, none⟩,
        ⟨⟨1, 3, 2021, none⟩, none, none, none, none, none, none, none,
          some 0, none⟩,
        ⟨⟨1, 3, 2022, some 120⟩, none, none, none, none, none, none, none,
          some ((120 - 100) / 100), none⟩] ∧
    (⟨⟨1, 3, 2021, none⟩, none, none, none, none, none, none, none,
      some 0, none⟩ : FinalRow).base.totalAssets = none ∧
    (⟨⟨1, 3, 2021, none⟩, none, none, none, none, none, none, none,
      some 0, none⟩ : FinalRow).assetGrowth ≠ none ∧
    (⟨⟨1, 3, 2022, some 120⟩, none, none, none, none, none, none, none,
      some ((120 - 100) / 100), none⟩ : FinalRow).assetGrowth =
      some ((120 - 100) / 100) :=
  ⟨by decide, rfl, by decide, rfl⟩

/-- C4 (amended): `Branch_Growth_YoY` is, within each `FDIC_Cert` group
of the year-sorted SOD aggregate, the relative change of `Total_Branches`
against the immediately preceding record present in the data (whose year
is the closest earlier year), with no value on each bank's first record.
`Asset_Growth_YoY` is the `groupby('RSSD_ID').pct_change()` of the
nullable `Total_Assets` over the year-sorted merged dataset, which
forward-fills the column within each group first: a record's growth is
the relative change of its forward-filled value against the value of the
last earlier record of its bank carrying a non-null `Total_Assets`; it is
`none` on each bank's first record and while no earlier record of the
bank carries a value; and it reduces to the plain quotient against the
immediately preceding record exactly when that record's `Total_Assets` is
present. -/
theorem growth_columns_are_groupwise_pct_change :
    (∀ (files : List (Option (List SodRecord))) (s : List SodAggRow),
      load_and_aggregate_sod files = some s →
      (∀ a, s[0]? = some a → a.branchGrowth = none) ∧
      (∀ (i : Nat) (a b : SodAggRow), s[i]? = some a → s[i+1]? = some b →
        (a.fdicCert = b.fdicCert →
          a.year < b.year ∧
          b.branchGrowth = some ((b.totalBranches - a.totalBranches) /
            a.totalBranches)) ∧
        (a.fdicCert ≠ b.fdicCert → b.branchGrowth = none))) ∧
    (∀ (ffiec : List FfiecRow) (sod : Option (List SodAggRow))
      (ea : Option (List EdgarAnnualAgg)) (eqa : Option (List EdgarQuarterlyAgg)),
      (∀ a, (merge_all_datasets ffiec sod ea eqa)[0]? = some a →
        a.assetGrowth = none) ∧
      (∀ (i : Nat) (a b : FinalRow),
        (merge_all_datasets ffiec sod ea eqa)[i]? = some a →
        (merge_all_datasets ffiec sod ea eqa)[i+1]? = some b →
        (a.base.rssdId = b.base.rssdId →
          a.base.year ≤ b.base.year ∧
          b.assetGrowth = (lastFilled ((((merge_all_datasets ffiec sod ea
              eqa).take (i+1)).filter
              (fun x => decide (x.base.rssdId = b.base.rssdId))).map
              (fun x => x.base.totalAssets))).map
            (fun bv => ((b.base.totalAssets).getD bv - bv) / bv) ∧
          (∀ va, a.base.totalAssets = some va →
            b.assetGrowth = some (((b.base.totalAssets).getD va - va) / va))) ∧
        (a.base.rssdId ≠ b.base.rssdId → b.assetGrowth = none))) :=
  ⟨sod_branch_growth_spec, merged_asset_growth_spec⟩

unseal Rat.add Rat.mul Rat.inv Rat.sub in
/-- Witness for C4 at a concrete SOD input (one bank, years 2020-2021)
and a concrete merged frame (one bank, assets 100 then 110, both present,
so the growth is the quotient against the previous record's value). -/
theorem growth_columns_are_groupwise_pct_change_witness :
    (((⟨3, 2020, 1, 10, some ['1'], none, none, 10, none⟩ : SodAggRow).fdicCert =
        (⟨3, 2021, 1, 20, some ['1'], none, none, 20, some 0⟩ : SodAggRow).fdicCert →
      (⟨3, 2020, 1, 10, some ['1'], none, none, 10, none⟩ : SodAggRow).year <
        (⟨3, 2021, 1, 20, some ['1'], none, none, 20, some 0⟩ : SodAggRow).year ∧
      (⟨3, 2021, 1, 20, some ['1'], none, none, 20, some 0⟩ : SodAggRow).branchGrowth =
        some (((⟨3, 2021, 1, 20, some ['1'], none, none, 20, some 0⟩ :
            SodAggRow).totalBranches -
          (⟨3, 2020, 1, 10, some ['1'], none, none, 10, none⟩ :
            SodAggRow).totalBranches) /
          (⟨3, 2020, 1, 10, some ['1'], none, none, 10, none⟩ :
            SodAggRow).totalBranches)) ∧
    ((⟨3, 2020, 1, 10, some ['1'], none, none, 10, none⟩ : SodAggRow).fdicCert ≠
        (⟨3, 2021, 1, 20, some ['1'], none, none, 20, some 0⟩ : SodAggRow).fdicCert →
      (⟨3, 2021, 1, 20, some ['1'], none, none, 20, some 0⟩ :
        SodAggRow).branchGrowth = none)) ∧
    (⟨⟨1, 3, 2021, some 110⟩, none, none, none, none, none, none, none,
      some (1/10), none⟩ : FinalRow).assetGrowth =
      some ((((⟨⟨1, 3, 2021, some 110⟩, none, none, none, none, none, none,
        none, some (1/10), none⟩ : FinalRow).base.totalAssets).getD 100 - 100) /
        100) :=
  ⟨(growth_columns_are_groupwise_pct_change.1
      [some [⟨some 3, ['1'], some 2020, some 10, some 1, none, none⟩,
        ⟨some 3, ['1'], some 2021, some 20, some 1, none, none⟩]]
      [⟨3, 2020, 1, 10, some ['1'], none, none, 10, none⟩,
        ⟨3, 2021, 1, 20, some ['1'], none, none, 20, some 0⟩] (by rfl)).2 0
      ⟨3, 2020, 1, 10, some ['1'], none, none, 10, none⟩
      ⟨3, 2021, 1, 20, some ['1'], none, none, 20, some 0⟩ (by rfl) (by rfl),
   (((growth_columns_are_groupwise_pct_change.2
      [⟨1, 3, 2020, some 100⟩, ⟨1, 3, 2021, some 110⟩] none none none).2 0
      ⟨⟨1, 3, 2020, some 100⟩, none, none, none, none, none, none, none,
        none, none⟩
      ⟨⟨1, 3, 2021, some 110⟩, none, none, none, none, none, none, none,
        some (1/10), none⟩ (by rfl) (by rfl)).1 rfl).2.2 100 rfl⟩
unseal Rat.add Rat.mul Rat.inv Rat.sub in
/-- Witness for C10 at a concrete merge. -/
theorem merged_edgar_flags_total_witness :
    (∃ b, (⟨⟨1, 3, 2020, some 50⟩, none, none, none, some false, some false, none,
      none, none, some false⟩ : FinalRow).has10K = some b) ∧
    (∃ b, (⟨⟨1, 3, 2020, some 50⟩, none, none, none, some false, some false, none,
      none, none, some false⟩ : FinalRow).hasDEF14A = some b) ∧
    ((⟨⟨1, 3, 2020, some 50⟩, none, none, none, some false, some false, none,
      none, none, some false⟩ : FinalRow).edgarA = none →
      (⟨⟨1, 3, 2020, some 50⟩, none, none, none, some false, some false, none,
        none, none, some false⟩ : FinalRow).has10K = some false ∧
      (⟨⟨1, 3, 2020, some 50⟩, none, none, none, some false, some false, none,
        none, none, some false⟩ : FinalRow).hasDEF14A = some false) ∧
    (⟨⟨1, 3, 2020, some 50⟩, none, none, none, some false, some false, none,
      none, none, some false⟩ : FinalRow).isPublicCompany =
      (⟨⟨1, 3, 2020, some 50⟩, none, none, none, some false, some false, none,
        none, none, some false⟩ : FinalRow).has10K :=
  (merged_edgar_flags_total [⟨1, 3, 2020, some 50⟩] none).1 [] none
    ⟨⟨1, 3, 2020, some 50⟩, none, none, none, some false, some false, none,
      none, none, some false⟩ (by decide)

end BankInnovation
